import Mathlib

/-!
# Identity and file tracking engine of the kernel event collector module

A shallow embedding of

* `src/kernel_event_collector_module/src/process-tracking-helpers.c`
* `src/kernel_event_collector_module/src/file-process-tracking.c`
* `src/kernel_event_collector_module/src/process-tracking-file-cache.c`

Pointers are `Option Nat` (`none` is `NULL`), objects live in heaps indexed by
their address, and every C function that mutates shared objects becomes a
function that takes the heap and returns the new heap together with its
result.  The `ProcessContext *context` argument only carries allocation flags
and the caller's pid; it is dropped.

The control macros come from `priv.h`: `TRY(x)` jumps to `CATCH_DEFAULT` when
`x` is false, `CANCEL_VOID(x)` returns when `x` is false.
-/

namespace KernelEventCollector

/-! ## Pointers, heaps and the reference-counted memory cache -/

/-- A C pointer: `none` is `NULL`, `some a` is the address `a`. -/
abbrev Ptr := Option Nat

/-- The bytes of a NUL-terminated C string, terminator excluded. -/
abbrev CString := List Char

/-- Store `v` at address `a` of a heap. -/
def heapSet {α : Type} (h : Nat → α) (a : Nat) (v : α) : Nat → α :=
  fun b => if b = a then v else h b

/-- One allocation of the generic memory cache that holds a string. -/
structure CacheObj where
  data : CString
  refcnt : Int
  freed : Bool
  deriving DecidableEq

/-- The generic memory cache: its allocations and the next address it hands out. -/
structure MemCache where
  objs : Nat → CacheObj
  next : Nat

/-- Modelled from the spec: `ec_mem_cache_get_generic` of the memory cache,
which is not under src. "get operations return an object while incrementing
its reference count"; a `NULL` value is passed through. -/
def ec_mem_cache_get_generic (value : Ptr) (m : MemCache) : Ptr × MemCache :=
  match value with
  | none => (none, m)
  | some a =>
    (some a, { m with objs := heapSet m.objs a { m.objs a with refcnt := (m.objs a).refcnt + 1 } })

/-- Modelled from the spec: `ec_mem_cache_put_generic` of the memory cache,
which is not under src. "put operations decrement and, at zero, invoke the
type's deletion callback"; for a plain allocation that is freeing it. A `NULL`
value is a no-op. -/
def ec_mem_cache_put_generic (value : Ptr) (m : MemCache) : MemCache :=
  match value with
  | none => m
  | some a =>
    let o := m.objs a
    let rc := o.refcnt - 1
    { m with objs := heapSet m.objs a { o with refcnt := rc, freed := o.freed || decide (rc = 0) } }

/-- Modelled from the spec: `ec_mem_cache_strdup` of the memory cache, which
is not under src: "duplicates the path into owned storage". A `NULL` source
gives `NULL`; `ok = false` is the out-of-memory case of the spec's error
taxonomy, which also gives `NULL`. The copy starts with one reference. -/
def ec_mem_cache_strdup (src : Option CString) (ok : Bool) (m : MemCache) : Ptr × MemCache :=
  match src with
  | none => (none, m)
  | some str =>
    if ok then
      (some m.next,
        { objs := heapSet m.objs m.next { data := str, refcnt := 1, freed := false },
          next := m.next + 1 })
    else (none, m)

/-- The C library `strlen` on a string of the memory cache. -/
def strlen (m : MemCache) (a : Nat) : Nat := (m.objs a).data.length

/-! ## Data model of process tracking -/

/-- Identifying details of one process; the fields this source reads. -/
structure ProcessDetails where
  pid : Nat
  device : Nat
  inode : Nat
  deriving DecidableEq

/-- The event types this source switches on; `OTHER` stands for every
remaining member of the enumeration. -/
inductive CB_EVENT_TYPE where
  | PROCESS_START
  | PROCESS_EXIT
  | PROCESS_LAST_EXIT
  | PROCESS_START_EXEC
  | PROCESS_BLOCKED
  | MODULE_LOAD
  | FILE_CREATE
  | FILE_DELETE
  | FILE_WRITE
  | FILE_CLOSE
  | NET_CONNECT_PRE
  | NET_CONNECT_POST
  | NET_ACCEPT
  | DNS_RESPONSE
  | OTHER (code : Nat)
  deriving DecidableEq

/-- The intent tag of an event, an enumeration value. -/
abbrev CB_INTENT_TYPE := Nat

/-- Indices of `all_process_details.array`. -/
inductive ProcessDetailsIndex where
  | FORK
  | FORK_PARENT
  | FORK_GRANDPARENT
  | EXEC
  | EXEC_PARENT
  | EXEC_GRANDPARENT
  deriving DecidableEq

/-- The shared record of an executable image. `freed` records that the
deletion callback has run. -/
structure ExecIdentity where
  exec_details : ProcessDetails
  exec_parent_details : ProcessDetails
  exec_grandparent_details : ProcessDetails
  path : Ptr
  cmdline : Ptr
  path_found : Bool
  reference_count : Int
  active_process_count : Int
  exit_event : Ptr
  freed : Bool
  deriving DecidableEq

/-- The per-process-instance record. The counters are taken as unbounded
naturals; their declaration is in a header that is not under src. -/
structure PosixIdentity where
  reference_count : Int
  posix_details : ProcessDetails
  posix_parent_details : ProcessDetails
  posix_grandparent_details : ProcessDetails
  exec_identity : Ptr
  temp_exec_identity : Ptr
  exec_blocked : Bool
  process_op_cnt : Nat
  process_create : Nat
  process_exit : Nat
  file_op_cnt : Nat
  file_map_exec : Nat
  file_create : Nat
  file_delete : Nat
  file_open : Nat
  file_write : Nat
  file_close : Nat
  net_op_cnt : Nat
  net_connect : Nat
  net_accept : Nat
  net_dns : Nat
  deriving DecidableEq

/-- An event record together with the `process_data` of the event node that
contains it. -/
structure CB_EVENT where
  all_process_details : ProcessDetailsIndex → ProcessDetails
  path_found : Bool
  path : Ptr
  path_size : Nat
  intentType : CB_INTENT_TYPE
  process_data : Ptr

/-- The shared objects of process tracking: the ExecIdentity heap, the memory
cache, the exit events released to the consumer queue and the events freed. -/
structure State where
  execs : Nat → ExecIdentity
  mem : MemCache
  sent_events : List Nat
  freed_events : List Nat

/-- The global counters of `g_process_tracking_data`. -/
structure ProcessTrackingData where
  create_by_fork : Nat
  create_by_exec : Nat
  deriving DecidableEq

/-! ## Path and command line accessors -/

/-- Embeds `ec_process_tracking_put_path`. -/
def ec_process_tracking_put_path (path : Ptr) (s : State) : State :=
  { s with mem := ec_mem_cache_put_generic path s.mem }

/-- Embeds `ec_process_tracking_put_cmdline`. -/
def ec_process_tracking_put_cmdline (cmdline : Ptr) (s : State) : State :=
  { s with mem := ec_mem_cache_put_generic cmdline s.mem }

/-- Embeds `ec_process_tracking_get_path`. -/
def ec_process_tracking_get_path (exec_identity : Ptr) (s : State) : Ptr × State :=
  match exec_identity with
  | none => (none, s)
  | some x =>
    let r := ec_mem_cache_get_generic (s.execs x).path s.mem
    (r.1, { s with mem := r.2 })

/-- Embeds `ec_process_tracking_get_cmdline`. -/
def ec_process_tracking_get_cmdline (exec_identity : Ptr) (s : State) : Ptr × State :=
  match exec_identity with
  | none => (none, s)
  | some x =>
    let r := ec_mem_cache_get_generic (s.execs x).cmdline s.mem
    (r.1, { s with mem := r.2 })

/-- Embeds `ec_process_tracking_set_path`: release the old string, then take a
reference on the new one (or store `NULL`). -/
def ec_process_tracking_set_path (exec_identity : Ptr) (path : Ptr) (s : State) : State :=
  match exec_identity with
  | none => s
  | some x =>
    let s1 := ec_process_tracking_put_path (s.execs x).path s
    let r := match path with
      | some p => ec_mem_cache_get_generic (some p) s1.mem
      | none => (none, s1.mem)
    { s1 with execs := heapSet s1.execs x { s1.execs x with path := r.1 }, mem := r.2 }

/-- Embeds `ec_process_tracking_set_cmdline`. -/
def ec_process_tracking_set_cmdline (exec_identity : Ptr) (cmdline : Ptr) (s : State) : State :=
  match exec_identity with
  | none => s
  | some x =>
    let s1 := ec_process_tracking_put_cmdline (s.execs x).cmdline s
    let r := match cmdline with
      | some p => ec_mem_cache_get_generic (some p) s1.mem
      | none => (none, s1.mem)
    { s1 with execs := heapSet s1.execs x { s1.execs x with cmdline := r.1 }, mem := r.2 }

/-! ## ExecIdentity references -/

/-- Embeds `ec_process_tracking_get_exec_identity_ref`. -/
def ec_process_tracking_get_exec_identity_ref (exec_identity : Ptr) (s : State) : Ptr × State :=
  match exec_identity with
  | none => (none, s)
  | some x =>
    let e := s.execs x
    let e1 := { e with reference_count := e.reference_count + 1 }
    (some x, { s with execs := heapSet s.execs x e1 })

/-- Modelled from the spec: the deletion of an ExecIdentity, part of
`ec_process_tracking_put_exec_identity`, which is not under src. The stored
exit event becomes deliverable ("until the identity it references reaches a
zero reference count"), the owned path and cmdline strings are released, and
the record is freed. -/
def exec_identity_delete (x : Nat) (s : State) : State :=
  let e := s.execs x
  let s1 : State :=
    { s with
      execs := heapSet s.execs x { e with exit_event := none },
      sent_events := match e.exit_event with
        | some ev => s.sent_events ++ [ev]
        | none => s.sent_events }
  let s2 := ec_process_tracking_set_path (some x) none s1
  let s3 := ec_process_tracking_set_cmdline (some x) none s2
  { s3 with execs := heapSet s3.execs x { s3.execs x with freed := true } }

/-- Modelled from the spec: `ec_process_tracking_put_exec_identity`, which is
not under src. "put operations decrement and, at zero, invoke the type's
deletion callback"; "an ExecIdentity is destroyed only when reference_count
reaches zero". A `NULL` identity is a no-op. -/
def ec_process_tracking_put_exec_identity (exec_identity : Ptr) (s : State) : State :=
  match exec_identity with
  | none => s
  | some x =>
    let rc := (s.execs x).reference_count - 1
    let s1 := { s with execs := heapSet s.execs x { s.execs x with reference_count := rc } }
    if rc = 0 then exec_identity_delete x s1 else s1

/-- Embeds `ec_process_tracking_get_exec_identity`. -/
def ec_process_tracking_get_exec_identity (posix_identity : Option PosixIdentity) (s : State) :
    Ptr × State :=
  match posix_identity with
  | none => (none, s)
  | some p => ec_process_tracking_get_exec_identity_ref p.exec_identity s

/-- Embeds `ec_process_tracking_get_temp_exec_identity`. -/
def ec_process_tracking_get_temp_exec_identity (posix_identity : Option PosixIdentity)
    (s : State) : Ptr × State :=
  match posix_identity with
  | none => (none, s)
  | some p => ec_process_tracking_get_exec_identity_ref p.temp_exec_identity s

/-- Embeds `ec_process_tracking_set_temp_exec_identity`: release the identity
held in the slot, then store the new one with a fresh reference. -/
def ec_process_tracking_set_temp_exec_identity (posix_identity : Option PosixIdentity)
    (exec_identity : Ptr) (s : State) : Option PosixIdentity × State :=
  match posix_identity with
  | none => (none, s)
  | some p =>
    let s1 := ec_process_tracking_put_exec_identity p.temp_exec_identity s
    let r := ec_process_tracking_get_exec_identity_ref exec_identity s1
    (some { p with temp_exec_identity := r.1 }, r.2)

/-- Embeds `ec_process_posix_identity_set_exec_identity`. -/
def ec_process_posix_identity_set_exec_identity (posix_identity : Option PosixIdentity)
    (exec_identity : Ptr) (s : State) : Option PosixIdentity × State :=
  match posix_identity with
  | none => (none, s)
  | some p =>
    let s1 := ec_process_tracking_put_exec_identity p.exec_identity s
    let r := ec_process_tracking_get_exec_identity_ref exec_identity s1
    (some { p with exec_identity := r.1 }, r.2)

/-! ## Event construction -/

/-- Modelled from the spec: `ec_event_set_process_data` of the event factory,
which is not under src. The event carries "an attached identity reference
that the emission layer is responsible for eventually releasing" (the source
says "each event will hold a reference to the exec_identity object"), so
attaching follows the uniform set pattern: release what the event node held,
then store the identity with a reference of its own. A `NULL` event is a
no-op. -/
def ec_event_set_process_data (event : Option CB_EVENT) (process_data : Ptr) (s : State) :
    Option CB_EVENT × State :=
  match event with
  | none => (none, s)
  | some ev =>
    let s1 := ec_process_tracking_put_exec_identity ev.process_data s
    let r := ec_process_tracking_get_exec_identity_ref process_data s1
    (some { ev with process_data := r.1 }, r.2)

/-- Store `v` in slot `i` of the lineage array. -/
def arraySet (arr : ProcessDetailsIndex → ProcessDetails) (i : ProcessDetailsIndex)
    (v : ProcessDetails) : ProcessDetailsIndex → ProcessDetails :=
  fun j => if j = i then v else arr j

/-- What `ec_process_tracking_set_event_info` leaves behind: the PosixIdentity
and the event it was given (both possibly `NULL`) and the shared objects. -/
structure EventInfoResult where
  posix_identity : Option PosixIdentity
  event : Option CB_EVENT
  state : State

/-- The part of `ec_process_tracking_set_event_info` between the `TRY` and the
`CATCH_DEFAULT` label, when the `TRY` passes: fill the event and attach an
identity. Returns the event, the local `temp_exec_identity` and the state. -/
def set_event_info_fill (p : PosixIdentity) (intentType : CB_INTENT_TYPE)
    (eventType : CB_EVENT_TYPE) (ev : CB_EVENT) (x : Nat) (s : State) :
    Option CB_EVENT × Ptr × State :=
  let e := s.execs x
  let arr := arraySet ev.all_process_details .FORK p.posix_details
  let arr := arraySet arr .FORK_PARENT p.posix_parent_details
  let arr := arraySet arr .FORK_GRANDPARENT p.posix_grandparent_details
  let arr := arraySet arr .EXEC e.exec_details
  let arr := arraySet arr .EXEC_PARENT e.exec_parent_details
  let arr := arraySet arr .EXEC_GRANDPARENT e.exec_grandparent_details
  let r := ec_process_tracking_get_path (some x) s
  let ev1 : CB_EVENT :=
    { ev with all_process_details := arr, path_found := e.path_found, path := r.1 }
  let ev2 : CB_EVENT :=
    match r.1 with
    | some a => { ev1 with path_size := strlen r.2.mem a + 1 }
    | none => ev1
  match eventType with
  | .PROCESS_EXIT | .PROCESS_LAST_EXIT | .PROCESS_START_EXEC | .PROCESS_BLOCKED =>
    let t := ec_process_tracking_get_temp_exec_identity (some p) r.2
    let a := ec_event_set_process_data (some ev2) t.1 t.2
    (a.1.map (fun v => { v with intentType := intentType }), t.1, a.2)
  | _ =>
    let a := ec_event_set_process_data (some ev2) (some x) r.2
    (a.1.map (fun v => { v with intentType := intentType }), none, a.2)

/-- Embeds `ec_process_tracking_set_event_info`. -/
def ec_process_tracking_set_event_info (posix_identity : Option PosixIdentity)
    (intentType : CB_INTENT_TYPE) (eventType : CB_EVENT_TYPE) (event : Option CB_EVENT)
    (s : State) : EventInfoResult :=
  let g := ec_process_tracking_get_exec_identity posix_identity s
  let exec_identity := g.1
  let body : Option CB_EVENT × Ptr × State :=
    match posix_identity, event, exec_identity with
    | some p, some ev, some x => set_event_info_fill p intentType eventType ev x g.2
    | _, _, _ => (event, none, g.2)
  let temp_exec_identity := body.2.1
  -- CATCH_DEFAULT
  let c := ec_process_tracking_set_temp_exec_identity posix_identity none body.2.2
  let s1 := ec_process_tracking_put_exec_identity exec_identity c.2
  let s2 := ec_process_tracking_put_exec_identity temp_exec_identity s1
  { posix_identity := c.1, event := body.1, state := s2 }

/-! ## Operation counters -/

/-- Modelled from the spec: the action tag of "process start via fork"; the
constant is declared in a header that is not under src. -/
def CB_PROCESS_START_BY_FORK : Int := 1

/-- Modelled from the spec: the action tag of "process start via exec"; the
constant is declared in a header that is not under src. -/
def CB_PROCESS_START_BY_EXEC : Int := 2

/-- The `CB_EVENT_TYPE_FILE_CLOSE` arm of the switch in
`ec_process_tracking_update_op_cnts`, which the `FILE_WRITE` arm runs into. -/
def op_cnts_file_close (p : PosixIdentity) : PosixIdentity :=
  { p with file_op_cnt := p.file_op_cnt + 1, file_close := p.file_close + 1 }

/-- Embeds `ec_process_tracking_update_op_cnts`. The `FILE_WRITE` arm has no
`break` and continues with the `FILE_CLOSE` arm. -/
def ec_process_tracking_update_op_cnts (p : PosixIdentity) (event_type : CB_EVENT_TYPE)
    (action : Int) (g : ProcessTrackingData) : PosixIdentity × ProcessTrackingData :=
  match event_type with
  | .PROCESS_START =>
    ({ p with process_op_cnt := p.process_op_cnt + 1, process_create := p.process_create + 1 },
      if action = CB_PROCESS_START_BY_FORK then
        { g with create_by_fork := g.create_by_fork + 1 }
      else if action = CB_PROCESS_START_BY_EXEC then
        { g with create_by_exec := g.create_by_exec + 1 }
      else g)
  | .PROCESS_EXIT | .PROCESS_LAST_EXIT =>
    ({ p with process_op_cnt := p.process_op_cnt + 1, process_exit := p.process_exit + 1 }, g)
  | .MODULE_LOAD =>
    ({ p with file_op_cnt := p.file_op_cnt + 1, file_map_exec := p.file_map_exec + 1 }, g)
  | .FILE_CREATE =>
    ({ p with file_op_cnt := p.file_op_cnt + 1, file_create := p.file_create + 1 }, g)
  | .FILE_DELETE =>
    ({ p with file_op_cnt := p.file_op_cnt + 1, file_delete := p.file_delete + 1 }, g)
  | .FILE_WRITE =>
    let p1 := { p with file_op_cnt := p.file_op_cnt + 1 }
    let p2 := if p1.file_write = 0 then { p1 with file_open := p1.file_open + 1 } else p1
    let p3 := { p2 with file_write := p2.file_write + 1 }
    (op_cnts_file_close p3, g)
  | .FILE_CLOSE => (op_cnts_file_close p, g)
  | .NET_CONNECT_PRE =>
    ({ p with net_op_cnt := p.net_op_cnt + 1, net_connect := p.net_connect + 1 }, g)
  | .NET_CONNECT_POST =>
    ({ p with net_op_cnt := p.net_op_cnt + 1, net_connect := p.net_connect + 1 }, g)
  | .NET_ACCEPT =>
    ({ p with net_op_cnt := p.net_op_cnt + 1, net_accept := p.net_accept + 1 }, g)
  | .DNS_RESPONSE =>
    ({ p with net_op_cnt := p.net_op_cnt + 1, net_dns := p.net_dns + 1 }, g)
  | _ => (p, g)

/-! ## The File Tracking Table -/

/-- The key of a File Tracking Table entry. -/
structure FILE_PROCESS_KEY where
  pid : Nat
  device : Nat
  inode : Nat
  deriving DecidableEq

/-- The status of an entry: `OPENED`, or one of the other states, which this
source never assigns. -/
inductive FILE_PROCESS_STATUS where
  | OPENED
  | OTHER (code : Nat)
  deriving DecidableEq

/-- An entry of the File Tracking Table. -/
structure FILE_PROCESS_VALUE where
  key : FILE_PROCESS_KEY
  reference_count : Int
  path : Ptr
  isSpecialFile : Bool
  didReadType : Bool
  status : FILE_PROCESS_STATUS
  deriving DecidableEq

/-- The store behind `s_file_hash_table`: the memory of its nodes, the
addresses of the nodes currently linked into the table (newest first), the
next address its allocator hands out, and the nodes returned to it. -/
structure HashTbl where
  heap : Nat → FILE_PROCESS_VALUE
  nodes : List Nat
  next : Nat
  freed : List Nat

/-- Everything file tracking touches: the table and the memory cache that
owns the path strings. -/
structure FileState where
  tbl : HashTbl
  mem : MemCache

/-- The node linked into the table under `key`, if any. -/
def hashtbl_find (t : HashTbl) (key : FILE_PROCESS_KEY) : Ptr :=
  t.nodes.find? (fun a => decide ((t.heap a).key = key))

/-- Modelled from the spec: `ec_hashtbl_get_generic` of the Keyed
Reference-Counted Store, which is not under src: "lookup-by-key" with a
"reference-counted get", so a hit is returned with its count incremented. -/
def ec_hashtbl_get_generic (key : FILE_PROCESS_KEY) (fs : FileState) : Ptr × FileState :=
  match hashtbl_find fs.tbl key with
  | none => (none, fs)
  | some a =>
    let v := fs.tbl.heap a
    (some a, { fs with tbl := { fs.tbl with
      heap := heapSet fs.tbl.heap a { v with reference_count := v.reference_count + 1 } } })

/-- Modelled from the spec: `ec_hashtbl_alloc_generic` of the Store, which is
not under src. It hands out a fresh node, or `NULL` when `ok = false`, the
out-of-memory case of the spec's error taxonomy. -/
def ec_hashtbl_alloc_generic (ok : Bool) (fs : FileState) : Ptr × FileState :=
  if ok then (some fs.tbl.next, { fs with tbl := { fs.tbl with next := fs.tbl.next + 1 } })
  else (none, fs)

/-- Modelled from the spec: `ec_hashtbl_free_generic` of the Store, which is
not under src: the node's memory goes back to the allocator. -/
def ec_hashtbl_free_generic (a : Nat) (fs : FileState) : FileState :=
  { fs with tbl := { fs.tbl with freed := a :: fs.tbl.freed } }

/-- Modelled from the spec: `ec_hashtbl_add_generic` of the Store, which is
not under src: "insert-if-absent". A node whose key is already linked is
rejected with a negative result; otherwise the node is linked and the table
takes its own reference on it ("the reference held by the table itself"). -/
def ec_hashtbl_add_generic (a : Nat) (fs : FileState) : Int × FileState :=
  let v := fs.tbl.heap a
  match hashtbl_find fs.tbl v.key with
  | some _ => (-1, fs)
  | none =>
    (0, { fs with tbl := { fs.tbl with
      heap := heapSet fs.tbl.heap a { v with reference_count := v.reference_count + 1 },
      nodes := a :: fs.tbl.nodes } })

/-- Modelled from the spec: `ec_hashtbl_del_by_key_generic` of the Store,
which is not under src: "delete-by-key". The node is unlinked and handed to
the caller together with the reference the table held; `NULL` when the key is
not linked. -/
def ec_hashtbl_del_by_key_generic (key : FILE_PROCESS_KEY) (fs : FileState) : Ptr × FileState :=
  match hashtbl_find fs.tbl key with
  | none => (none, fs)
  | some a => (some a, { fs with tbl := { fs.tbl with nodes := fs.tbl.nodes.erase a } })

/-- Embeds `__ec_file_tracking_delete_callback`. -/
def __ec_file_tracking_delete_callback (data : Ptr) (fs : FileState) : FileState :=
  match data with
  | none => fs
  | some a =>
    let v := fs.tbl.heap a
    { tbl := { fs.tbl with heap := heapSet fs.tbl.heap a { v with path := none } },
      mem := ec_mem_cache_put_generic v.path fs.mem }

/-- Modelled from the spec: `ec_hashtbl_put_generic` of the Store, which is
not under src: "put operations decrement and, at zero, invoke the type's
deletion callback", after which the node is freed. A `NULL` node is a no-op. -/
def ec_hashtbl_put_generic (value : Ptr) (fs : FileState) : FileState :=
  match value with
  | none => fs
  | some a =>
    let v := fs.tbl.heap a
    let rc := v.reference_count - 1
    let v1 := { v with reference_count := rc }
    let fs1 : FileState := { fs with tbl := { fs.tbl with heap := heapSet fs.tbl.heap a v1 } }
    if rc = 0 then ec_hashtbl_free_generic a (__ec_file_tracking_delete_callback (some a) fs1)
    else fs1

/-- Embeds `ec_file_process_get`. -/
def ec_file_process_get (pid device inode : Nat) (fs : FileState) : Ptr × FileState :=
  ec_hashtbl_get_generic { pid := pid, device := device, inode := inode } fs

/-- Embeds `ec_file_process_status_open`. `allocOk` and `dupOk` say whether
the node allocation and the string duplication find memory; `env` is what
other threads do to the table between this call's lookup and its insert
(`id` for a call that runs alone). -/
def ec_file_process_status_open (pid device inode : Nat) (path : Option CString)
    (isSpecialFile : Bool) (allocOk dupOk : Bool) (env : FileState → FileState)
    (fs : FileState) : Ptr × FileState :=
  let g := ec_file_process_get pid device inode fs
  match g.1 with
  | some a => (some a, g.2)
  | none =>
    let al := ec_hashtbl_alloc_generic allocOk (env g.2)
    match al.1 with
    | none => (none, al.2)
    | some a =>
      let d := ec_mem_cache_strdup path dupOk al.2.mem
      let v : FILE_PROCESS_VALUE :=
        { key := { pid := pid, device := device, inode := inode },
          reference_count := 1,
          path := d.1,
          isSpecialFile := isSpecialFile,
          didReadType := false,
          status := .OPENED }
      let fs1 : FileState :=
        { tbl := { al.2.tbl with heap := heapSet al.2.tbl.heap a v }, mem := d.2 }
      let r := ec_hashtbl_add_generic a fs1
      if r.1 < 0 then (none, ec_hashtbl_free_generic a r.2) else (some a, r.2)

/-- Embeds `ec_file_process_status_close`. -/
def ec_file_process_status_close (pid device inode : Nat) (fs : FileState) : FileState :=
  let d := ec_hashtbl_del_by_key_generic { pid := pid, device := device, inode := inode } fs
  ec_hashtbl_put_generic d.1 d.2

/-- Embeds `ec_file_process_put_ref`. -/
def ec_file_process_put_ref (value : Ptr) (fs : FileState) : FileState :=
  ec_hashtbl_put_generic value fs

/-- The path string an entry owns, `none` when its path pointer is `NULL`. -/
def entryPath (fs : FileState) (a : Nat) : Option CString :=
  (fs.tbl.heap a).path.map (fun p => (fs.mem.objs p).data)

/-- No key is linked twice: what insert-if-absent maintains. -/
def uniqueKeys (t : HashTbl) : Prop :=
  (t.nodes.map (fun a => (t.heap a).key)).Nodup

/-- The invariant of the table: no key is linked twice, and the allocator
only hands out nodes that are not linked. It holds for the empty table and
every operation of file tracking keeps it. -/
def tableInv (t : HashTbl) : Prop :=
  uniqueKeys t ∧ ∀ a ∈ t.nodes, a < t.next

instance (t : HashTbl) : Decidable (uniqueKeys t) := by
  unfold uniqueKeys
  infer_instance

instance (t : HashTbl) : Decidable (tableInv t) := by
  unfold tableInv
  infer_instance

/-- The table right after `ec_file_tracking_init`: nothing linked. -/
def emptyTable (heap : Nat → FILE_PROCESS_VALUE) : HashTbl :=
  { heap := heap, nodes := [], next := 0, freed := [] }

/-! ## Process handles -/

/-- The snapshot of an ExecIdentity a handle carries. -/
structure ExecHandle where
  identity : Ptr
  path : Ptr
  cmdline : Ptr
  deriving DecidableEq

/-- A caller-scoped handle: the PosixIdentity it refers to and the snapshot
of its ExecIdentity. -/
structure ProcessHandle where
  posix_identity : Option PosixIdentity
  exec_handle : ExecHandle
  deriving DecidableEq

/-- Embeds `ec_process_posix_identity`. -/
def ec_process_posix_identity (process_handle : Option ProcessHandle) : Option PosixIdentity :=
  match process_handle with
  | some h => h.posix_identity
  | none => none

/-- Embeds `ec_process_exec_identity`. -/
def ec_process_exec_identity (process_handle : Option ProcessHandle) : Ptr :=
  match process_handle with
  | some h => h.exec_handle.identity
  | none => none

/-- Modelled from the spec: the deletion callback of the Posix Identity
Registry, which is not under src. A PosixIdentity is "destroyed when the
Store's refcount drops to zero, at which point its Exec Identity reference(s)
are released". -/
def posix_identity_delete (p : PosixIdentity) (s : State) : Option PosixIdentity × State :=
  let r := ec_process_posix_identity_set_exec_identity (some p) none s
  ec_process_tracking_set_temp_exec_identity r.1 none r.2

/-- Modelled from the spec: `ec_hashtbl_put_generic` on the table of
`g_process_tracking_data`, which is not under src: "put operations decrement
and, at zero, invoke the type's deletion callback". A `NULL` PosixIdentity is a
no-op. The result holds the PosixIdentity after the release. -/
def process_table_put (posix_identity : Option PosixIdentity) (s : State) :
    Option PosixIdentity × State :=
  match posix_identity with
  | none => (none, s)
  | some p =>
    let p1 := { p with reference_count := p.reference_count - 1 }
    if p1.reference_count = 0 then posix_identity_delete p1 s else (some p1, s)

/-- Embeds `ec_process_tracking_put_exec_handle`. -/
def ec_process_tracking_put_exec_handle (exec_handle : Option ExecHandle) (s : State) : State :=
  match exec_handle with
  | none => s
  | some h =>
    let s1 := ec_process_tracking_put_path h.path s
    let s2 := ec_process_tracking_put_cmdline h.cmdline s1
    ec_process_tracking_put_exec_identity h.identity s2

/-- Embeds `ec_exec_handle_set_exec_identity`: release the three references
the handle holds, then take the identity, its path and its cmdline. -/
def ec_exec_handle_set_exec_identity (exec_handle : Option ExecHandle) (exec_identity : Ptr)
    (s : State) : Option ExecHandle × State :=
  match exec_handle with
  | none => (none, s)
  | some h =>
    let s1 := ec_process_tracking_put_path h.path s
    let s2 := ec_process_tracking_put_cmdline h.cmdline s1
    let s3 := ec_process_tracking_put_exec_identity h.identity s2
    let i := ec_process_tracking_get_exec_identity_ref exec_identity s3
    let pa := ec_process_tracking_get_path exec_identity i.2
    let c := ec_process_tracking_get_cmdline exec_identity pa.2
    (some { identity := i.1, path := pa.1, cmdline := c.1 }, c.2)

/-- Embeds `ec_process_tracking_put_handle`. The result holds the
PosixIdentity of the handle after its release (`none` for a `NULL` handle). -/
def ec_process_tracking_put_handle (process_handle : Option ProcessHandle) (s : State) :
    Option PosixIdentity × State :=
  match process_handle with
  | none => (none, s)
  | some h =>
    let s1 := ec_process_tracking_put_exec_handle (some h.exec_handle) s
    process_table_put h.posix_identity s1

/-- What `ec_process_handle_alloc` leaves behind: the handle it returns, the
PosixIdentity it was given as it is after the call, and the shared objects. -/
structure HandleAllocResult where
  handle : Option ProcessHandle
  posix_identity : Option PosixIdentity
  state : State

/-- Embeds `ec_process_handle_alloc`. `allocOk` says whether the allocation of
the handle structure finds memory. -/
def ec_process_handle_alloc (posix_identity : Option PosixIdentity) (allocOk : Bool)
    (s : State) : HandleAllocResult :=
  if allocOk then
    let g := ec_process_tracking_get_exec_identity posix_identity s
    let zeroed : ExecHandle := { identity := none, path := none, cmdline := none }
    let r := ec_exec_handle_set_exec_identity (some zeroed) g.1 g.2
    let eh := r.1.getD zeroed
    let h : ProcessHandle := { posix_identity := posix_identity, exec_handle := eh }
    if eh.identity.isSome && eh.path.isSome && eh.cmdline.isSome then
      { handle := some h, posix_identity := posix_identity, state := r.2 }
    else
      -- CATCH_DEFAULT
      let c := ec_process_tracking_put_handle (some h) r.2
      { handle := none, posix_identity := c.1, state := c.2 }
  else
    { handle := none, posix_identity := posix_identity, state := s }

/-! ## Exit events -/

/-- Modelled from the spec: `ec_free_event` of the event factory, which is not
under src: the previously stored event is "discarded". A `NULL` event is a
no-op. -/
def ec_free_event (event : Ptr) (s : State) : State :=
  match event with
  | none => s
  | some ev => { s with freed_events := s.freed_events ++ [ev] }

/-- Embeds `ec_process_tracking_store_exit_event`. -/
def ec_process_tracking_store_exit_event (posix_identity : Option PosixIdentity) (event : Ptr)
    (s : State) : State :=
  let g := ec_process_tracking_get_exec_identity posix_identity s
  match posix_identity, g.1 with
  | some _, some x =>
    let prev_event := (g.2.execs x).exit_event
    let e1 := { g.2.execs x with exit_event := event }
    let s1 : State := { g.2 with execs := heapSet g.2.execs x e1 }
    let s2 := ec_free_event prev_event s1
    ec_process_tracking_put_exec_identity (some x) s2
  | _, _ => g.2

/-! ## Handle updates and query helpers -/

/-- Embeds `ec_process_tracking_set_exec_identity`: the identity of the handle
is released, then the snapshot is set to the new identity (which releases
what the snapshot held once more). -/
def ec_process_tracking_set_exec_identity (process_handle : Option ProcessHandle)
    (exec_identity : Ptr) (s : State) : Option ProcessHandle × State :=
  match process_handle, exec_identity with
  | some h, some x =>
    let s1 := ec_process_tracking_put_exec_identity (ec_process_exec_identity (some h)) s
    let r := ec_exec_handle_set_exec_identity (some h.exec_handle) (some x) s1
    (some { h with exec_handle := r.1.getD h.exec_handle }, r.2)
  | _, _ => (process_handle, s)

/-- Embeds `ec_process_tracking_is_blocked`. The result `none` stands for the
dereference of a `NULL` PosixIdentity inside a non-null handle. -/
def ec_process_tracking_is_blocked (process_handle : Option ProcessHandle) : Option Bool :=
  match process_handle with
  | none => some false
  | some h => (ec_process_posix_identity (some h)).map (fun p => p.exec_blocked)

/-- Embeds `ec_process_tracking_exec_pid`. The result `none` stands for the
dereference of a `NULL` ExecIdentity inside a non-null handle. -/
def ec_process_tracking_exec_pid (process_handle : Option ProcessHandle) (s : State) :
    Option Nat :=
  match process_handle with
  | none => some 1
  | some h => (ec_process_exec_identity (some h)).map (fun x => (s.execs x).exec_details.pid)

/-- Embeds `ec_process_tracking_has_active_process`. -/
def ec_process_tracking_has_active_process (posix_identity : Option PosixIdentity)
    (s : State) : Bool × State :=
  let g := ec_process_tracking_get_exec_identity posix_identity s
  let result :=
    match posix_identity, g.1 with
    | some _, some x => decide ((g.2.execs x).active_process_count ≠ 0)
    | _, _ => false
  (result, ec_process_tracking_put_exec_identity g.1 g.2)

/-- A run of `ec_process_tracking_update_op_cnts` calls on one PosixIdentity,
one (event type, action) pair per call. -/
def update_op_cnts_run (ops : List (CB_EVENT_TYPE × Int)) (p : PosixIdentity)
    (g : ProcessTrackingData) : PosixIdentity × ProcessTrackingData :=
  ops.foldl (fun st op => ec_process_tracking_update_op_cnts st.1 op.1 op.2 st.2) (p, g)

/-- Every per-identity operation counter is zero. -/
def countersZero (p : PosixIdentity) : Prop :=
  p.process_op_cnt = 0 ∧ p.process_create = 0 ∧ p.process_exit = 0 ∧
  p.file_op_cnt = 0 ∧ p.file_map_exec = 0 ∧ p.file_create = 0 ∧ p.file_delete = 0 ∧
  p.file_open = 0 ∧ p.file_write = 0 ∧ p.file_close = 0 ∧
  p.net_op_cnt = 0 ∧ p.net_connect = 0 ∧ p.net_accept = 0 ∧ p.net_dns = 0

instance (p : PosixIdentity) : Decidable (countersZero p) := by
  unfold countersZero
  infer_instance

/-- The counter relations of a PosixIdentity: every category total is the sum
of its parts, and file_open is 0 or 1, being 1 exactly when a write was
counted. -/
def countersInv (p : PosixIdentity) : Prop :=
  p.process_op_cnt = p.process_create + p.process_exit ∧
  p.net_op_cnt = p.net_connect + p.net_accept + p.net_dns ∧
  p.file_op_cnt =
    p.file_map_exec + p.file_create + p.file_delete + p.file_write + p.file_close ∧
  p.file_open ≤ 1 ∧ (p.file_open = 1 ↔ p.file_write ≠ 0)

/-! ## The file tree cache -/

/-- A tracked-file tree as the visitor receives it: `none` is a `NULL` tree,
otherwise the tracked paths (none of them for an empty tree). -/
abbrev FILE_TREE := Option (List CString)

/-- What a callback of the table iteration returns. -/
inductive HashTblAction where
  | ACTION_CONTINUE
  | ACTION_STOP
  deriving DecidableEq

/-- The visitor `process_tracking_for_each_tree_callback`: it receives a tree
and the opaque state of the caller, and works on data `σ` of its own. -/
abbrev TreeCallback (σ : Type) := FILE_TREE → Nat → σ → σ

/-- Embeds `struct for_each_priv`. -/
structure for_each_priv (σ : Type) where
  callback : TreeCallback σ
  priv : Nat

/-- Modelled from the spec: `ec_process_tracking_get_shared_data`, which is
not under src. The file cache still uses the former name of the ExecIdentity
(shared data); the spec has "each entry whose ExecIdentity holds" the tree, and
a get returns the object with its count incremented. -/
def ec_process_tracking_get_shared_data (procp : Option PosixIdentity) (s : State) :
    Ptr × State :=
  ec_process_tracking_get_exec_identity procp s

/-- Modelled from the spec: `ec_process_tracking_put_shared_data`, which is
not under src: the release that pairs with `ec_process_tracking_get_shared_data`. -/
def ec_process_tracking_put_shared_data (shared_data : Ptr) (s : State) : State :=
  ec_process_tracking_put_exec_identity shared_data s

/-- Embeds `__ec_hashtbl_for_each_file_tree`. `trees x` is the `tracked_files`
field of the ExecIdentity at address `x`. -/
def __ec_hashtbl_for_each_file_tree {σ : Type} (trees : Nat → FILE_TREE)
    (nodep : Option PosixIdentity) (priv : Option (for_each_priv σ)) (st : State × σ) :
    HashTblAction × (State × σ) :=
  match nodep with
  | none => (.ACTION_STOP, st)
  | some procp =>
    match priv with
    | none => (.ACTION_STOP, st)
    | some local_priv =>
      let g := ec_process_tracking_get_shared_data (some procp) st.1
      let acc :=
        match g.1 with
        | some x => local_priv.callback (trees x) local_priv.priv st.2
        | none => st.2
      (.ACTION_CONTINUE, (ec_process_tracking_put_shared_data g.1 g.2, acc))

/-- Modelled from the spec: `ec_hashtbl_read_for_each_generic` of the Store,
which is not under src: a "read-only, lock-scoped traversal" that calls the
callback on every entry in turn, where "returning a stop-signal halts
iteration early". -/
def ec_hashtbl_read_for_each_generic {α : Type} (table : List PosixIdentity)
    (callback : Option PosixIdentity → α → HashTblAction × α) (a : α) : α :=
  match table with
  | [] => a
  | p :: rest =>
    match callback (some p) a with
    | (.ACTION_STOP, a1) => a1
    | (.ACTION_CONTINUE, a1) => ec_hashtbl_read_for_each_generic rest callback a1

/-- Embeds `ec_process_tracking_for_each_file_tree`, on the registry `table`. -/
def ec_process_tracking_for_each_file_tree {σ : Type} (callback : TreeCallback σ) (priv : Nat)
    (table : List PosixIdentity) (trees : Nat → FILE_TREE) (st : State × σ) : State × σ :=
  let local_priv : for_each_priv σ := { callback := callback, priv := priv }
  ec_hashtbl_read_for_each_generic table
    (fun nodep a => __ec_hashtbl_for_each_file_tree trees nodep (some local_priv) a) st

/-- A visitor that records the tree and the caller state of each invocation. -/
def recordVisit : TreeCallback (List (FILE_TREE × Nat)) :=
  fun tree priv log => log ++ [(tree, priv)]

/-! ## Example objects -/

/-- Details of a process with the given pid. -/
def detailsOf (pid : Nat) : ProcessDetails := { pid := pid, device := 8, inode := 100 + pid }

/-- An ExecIdentity heap with the image of pid 5 at address 1 (its path at
cache address 7) and the image of pid 1 at every other address, each
referenced `rc` times. -/
def exampleExecs (rc : Int) : Nat → ExecIdentity := fun a =>
  { exec_details := detailsOf (if a = 1 then 5 else 1),
    exec_parent_details := detailsOf (if a = 1 then 4 else 0),
    exec_grandparent_details := detailsOf (if a = 1 then 3 else 0),
    path := if a = 1 then some 7 else none,
    cmdline := none,
    path_found := decide (a = 1),
    reference_count := rc,
    active_process_count := 1,
    exit_event := none,
    freed := false }

/-- A memory cache whose allocation 7 holds "/bin/x". -/
def exampleMem : MemCache :=
  { objs := fun _ => { data := "/bin/x".toList, refcnt := 1, freed := false }, next := 8 }

/-- The shared objects of the examples. -/
def exampleState (rc : Int) : State :=
  { execs := exampleExecs rc, mem := exampleMem, sent_events := [], freed_events := [] }

/-- A PosixIdentity for pid 5 with all counters zero. -/
def examplePosix (exec_identity temp_exec_identity : Ptr) : PosixIdentity :=
  { reference_count := 1,
    posix_details := detailsOf 5,
    posix_parent_details := detailsOf 1,
    posix_grandparent_details := detailsOf 0,
    exec_identity := exec_identity,
    temp_exec_identity := temp_exec_identity,
    exec_blocked := false,
    process_op_cnt := 0, process_create := 0, process_exit := 0,
    file_op_cnt := 0, file_map_exec := 0, file_create := 0, file_delete := 0,
    file_open := 0, file_write := 0, file_close := 0,
    net_op_cnt := 0, net_connect := 0, net_accept := 0, net_dns := 0 }

/-- A freshly allocated event: nothing filled in, no identity attached. -/
def exampleEvent : CB_EVENT :=
  { all_process_details := fun _ => detailsOf 0,
    path_found := false, path := none, path_size := 0, intentType := 0, process_data := none }

/-- A File Tracking Table in which pid 5 has the file (8, 42) open, as the
node at address 0. -/
def exampleFileState : FileState :=
  { tbl :=
      { heap := fun _ =>
          { key := { pid := 5, device := 8, inode := 42 }, reference_count := 1,
            path := some 7, isSpecialFile := false, didReadType := false, status := .OPENED },
        nodes := [0], next := 1, freed := [] },
    mem := exampleMem }

/-- Another thread that opens the file (8, 42) for pid 6 as "/tmp/y". -/
def exampleRacer (fs : FileState) : FileState :=
  (ec_file_process_status_open 6 8 42 (some "/tmp/y".toList) false true true id fs).2

/-- The PosixIdentity of pid 5 as the registry hands it to a caller: one
reference held by the table and one by the caller, no temporary identity. -/
def exampleTrackedPosix : PosixIdentity :=
  { examplePosix (some 1) none with reference_count := 2 }

/-- The shared objects of `exampleState 1`, with a cmdline (cache address 6)
for the image at address 1. -/
def exampleStateCmd : State :=
  { exampleState 1 with
    execs := fun a => { exampleExecs 1 a with cmdline := if a = 1 then some 6 else none } }

/-- A handle for pid 5 whose snapshot holds the image at address 1 and its
path. -/
def exampleHandle : ProcessHandle :=
  { posix_identity := some exampleTrackedPosix,
    exec_handle := { identity := some 1, path := some 7, cmdline := none } }

/-! ## Lemmas on heaps and reference counts -/

@[simp]
theorem heapSet_same {α : Type} (h : Nat → α) (a : Nat) (v : α) : heapSet h a v a = v := by
  simp [heapSet]

theorem heapSet_apply {α : Type} (h : Nat → α) (a b : Nat) (v : α) :
    heapSet h a v b = if b = a then v else h b := rfl

@[simp]
theorem get_exec_identity_ref_fst (q : Ptr) (s : State) :
    (ec_process_tracking_get_exec_identity_ref q s).1 = q := by
  cases q <;> rfl

/-- Taking a reference changes one reference count and nothing else. -/
theorem get_exec_identity_ref_execs (q : Ptr) (s : State) (b : Nat) :
    (ec_process_tracking_get_exec_identity_ref q s).2.execs b =
      if q = some b then
        { s.execs b with reference_count := (s.execs b).reference_count + 1 }
      else s.execs b := by
  cases q with
  | none => simp [ec_process_tracking_get_exec_identity_ref]
  | some x =>
    simp only [ec_process_tracking_get_exec_identity_ref, heapSet_apply, Option.some.injEq]
    by_cases h : b = x
    · subst h; simp
    · simp [h, Ne.symm h]

@[simp]
theorem get_exec_identity_ref_mem (q : Ptr) (s : State) :
    (ec_process_tracking_get_exec_identity_ref q s).2.mem = s.mem := by
  cases q <;> rfl

theorem get_exec_identity_ref_rc (q : Ptr) (s : State) (b : Nat) :
    ((ec_process_tracking_get_exec_identity_ref q s).2.execs b).reference_count =
      (s.execs b).reference_count + (if q = some b then 1 else 0) := by
  rw [get_exec_identity_ref_execs]
  split <;> simp

@[simp]
theorem set_path_rc (q path : Ptr) (s : State) (b : Nat) :
    ((ec_process_tracking_set_path q path s).execs b).reference_count =
      (s.execs b).reference_count := by
  cases q with
  | none => rfl
  | some x =>
    simp only [ec_process_tracking_set_path, ec_process_tracking_put_path, heapSet_apply]
    split
    · rename_i h; subst h; rfl
    · rfl

@[simp]
theorem set_cmdline_rc (q cmdline : Ptr) (s : State) (b : Nat) :
    ((ec_process_tracking_set_cmdline q cmdline s).execs b).reference_count =
      (s.execs b).reference_count := by
  cases q with
  | none => rfl
  | some x =>
    simp only [ec_process_tracking_set_cmdline, ec_process_tracking_put_cmdline, heapSet_apply]
    split
    · rename_i h; subst h; rfl
    · rfl

@[simp]
theorem exec_identity_delete_rc (x : Nat) (s : State) (b : Nat) :
    ((exec_identity_delete x s).execs b).reference_count = (s.execs b).reference_count := by
  simp only [exec_identity_delete, heapSet_apply]
  split
  · rename_i h; subst h; simp [heapSet_apply]
  · simp [heapSet_apply, *]

/-- Releasing a reference lowers exactly that identity's count by one. -/
theorem put_exec_identity_rc (q : Ptr) (s : State) (b : Nat) :
    ((ec_process_tracking_put_exec_identity q s).execs b).reference_count =
      (s.execs b).reference_count - (if q = some b then 1 else 0) := by
  cases q with
  | none => simp [ec_process_tracking_put_exec_identity]
  | some x =>
    simp only [ec_process_tracking_put_exec_identity, Option.some.injEq]
    split
    · rw [exec_identity_delete_rc]
      by_cases h : b = x
      · subst h; simp
      · simp [heapSet_apply, h, Ne.symm h]
    · by_cases h : b = x
      · subst h; simp
      · simp [heapSet_apply, h, Ne.symm h]

@[simp]
theorem get_path_execs (q : Ptr) (s : State) :
    (ec_process_tracking_get_path q s).2.execs = s.execs := by
  cases q <;> rfl

@[simp]
theorem get_path_fst (x : Nat) (s : State) :
    (ec_process_tracking_get_path (some x) s).1 = (s.execs x).path := by
  simp only [ec_process_tracking_get_path, ec_mem_cache_get_generic]
  cases (s.execs x).path <;> rfl

@[simp]
theorem set_temp_fst (p : PosixIdentity) (q : Ptr) (s : State) :
    (ec_process_tracking_set_temp_exec_identity (some p) q s).1 =
      some { p with temp_exec_identity := q } := by
  simp [ec_process_tracking_set_temp_exec_identity]

theorem set_temp_none_rc (p : PosixIdentity) (s : State) (b : Nat) :
    ((ec_process_tracking_set_temp_exec_identity (some p) none s).2.execs b).reference_count =
      (s.execs b).reference_count - (if p.temp_exec_identity = some b then 1 else 0) := by
  simp [ec_process_tracking_set_temp_exec_identity, get_exec_identity_ref_rc,
    put_exec_identity_rc]

/-! ## Lemmas on `ec_process_tracking_set_event_info` -/

/-- With a PosixIdentity, an event and a natural identity the `TRY` passes and
the event is the one the fill part builds. -/
theorem set_event_info_event (p : PosixIdentity) (x : Nat) (hx : p.exec_identity = some x)
    (intentType : CB_INTENT_TYPE) (eventType : CB_EVENT_TYPE) (ev : CB_EVENT) (s : State) :
    (ec_process_tracking_set_event_info (some p) intentType eventType (some ev) s).event =
      (set_event_info_fill p intentType eventType ev x
        (ec_process_tracking_get_exec_identity_ref (some x) s).2).1 := by
  simp [ec_process_tracking_set_event_info, ec_process_tracking_get_exec_identity, hx]

/-- Every field of the event the fill part builds. -/
theorem fill_event (p : PosixIdentity) (intentType : CB_INTENT_TYPE)
    (eventType : CB_EVENT_TYPE) (ev : CB_EVENT) (x : Nat) (s : State) :
    ∃ ev', (set_event_info_fill p intentType eventType ev x s).1 = some ev' ∧
      ev'.all_process_details .FORK = p.posix_details ∧
      ev'.all_process_details .FORK_PARENT = p.posix_parent_details ∧
      ev'.all_process_details .FORK_GRANDPARENT = p.posix_grandparent_details ∧
      ev'.all_process_details .EXEC = (s.execs x).exec_details ∧
      ev'.all_process_details .EXEC_PARENT = (s.execs x).exec_parent_details ∧
      ev'.all_process_details .EXEC_GRANDPARENT = (s.execs x).exec_grandparent_details ∧
      ev'.path_found = (s.execs x).path_found ∧
      ev'.path = (s.execs x).path ∧
      (∀ a, (s.execs x).path = some a → ev'.path_size = (s.mem.objs a).data.length + 1) ∧
      ((s.execs x).path = none → ev'.path_size = ev.path_size) ∧
      ev'.intentType = intentType ∧
      ev'.process_data = (if eventType = .PROCESS_EXIT ∨ eventType = .PROCESS_LAST_EXIT ∨
        eventType = .PROCESS_START_EXEC ∨ eventType = .PROCESS_BLOCKED
        then p.temp_exec_identity else some x) := by
  cases hp : (s.execs x).path with
  | none =>
    cases eventType <;>
      simp [set_event_info_fill, ec_event_set_process_data, arraySet, hp,
        ec_process_tracking_get_temp_exec_identity]
  | some a =>
    cases eventType <;>
      simp [set_event_info_fill, ec_event_set_process_data, arraySet, hp,
        ec_process_tracking_get_temp_exec_identity, strlen, ec_process_tracking_get_path,
        ec_mem_cache_get_generic, heapSet_apply]

/-- The local `temp_exec_identity` after the fill part. -/
theorem fill_temp (p : PosixIdentity) (intentType : CB_INTENT_TYPE)
    (eventType : CB_EVENT_TYPE) (ev : CB_EVENT) (x : Nat) (s : State) :
    (set_event_info_fill p intentType eventType ev x s).2.1 =
      (if eventType = .PROCESS_EXIT ∨ eventType = .PROCESS_LAST_EXIT ∨
        eventType = .PROCESS_START_EXEC ∨ eventType = .PROCESS_BLOCKED
        then p.temp_exec_identity else none) := by
  cases eventType <;>
    simp [set_event_info_fill, ec_process_tracking_get_temp_exec_identity]

/-- Reference counts after the fill part. -/
theorem fill_rc (p : PosixIdentity) (intentType : CB_INTENT_TYPE)
    (eventType : CB_EVENT_TYPE) (ev : CB_EVENT) (x : Nat) (s : State) (b : Nat) :
    ((set_event_info_fill p intentType eventType ev x s).2.2.execs b).reference_count =
      (s.execs b).reference_count - (if ev.process_data = some b then 1 else 0) +
      (if eventType = .PROCESS_EXIT ∨ eventType = .PROCESS_LAST_EXIT ∨
        eventType = .PROCESS_START_EXEC ∨ eventType = .PROCESS_BLOCKED
        then 2 * (if p.temp_exec_identity = some b then 1 else 0)
        else (if x = b then 1 else 0)) := by
  cases hp : (s.execs x).path <;> cases eventType <;>
    simp [set_event_info_fill, ec_event_set_process_data, get_exec_identity_ref_rc,
      put_exec_identity_rc, ec_process_tracking_get_temp_exec_identity, hp] <;>
    split_ifs <;> omega

/-- Reference counts after a call with a `NULL` event. -/
theorem set_event_info_null_event_rc (p : PosixIdentity) (intentType : CB_INTENT_TYPE)
    (eventType : CB_EVENT_TYPE) (s : State) (b : Nat) :
    ((ec_process_tracking_set_event_info (some p) intentType eventType none s).state.execs
        b).reference_count =
      (s.execs b).reference_count - (if p.temp_exec_identity = some b then 1 else 0) := by
  simp only [ec_process_tracking_set_event_info, ec_process_tracking_get_exec_identity,
    put_exec_identity_rc, set_temp_none_rc, get_exec_identity_ref_rc, get_exec_identity_ref_fst]
  split_ifs <;> simp_all

/-- Reference counts after a call that builds an event. -/
theorem set_event_info_rc (p : PosixIdentity) (x : Nat) (hx : p.exec_identity = some x)
    (intentType : CB_INTENT_TYPE) (eventType : CB_EVENT_TYPE) (ev : CB_EVENT) (s : State)
    (b : Nat) :
    ((ec_process_tracking_set_event_info (some p) intentType eventType (some ev) s).state.execs
        b).reference_count =
      (s.execs b).reference_count - (if ev.process_data = some b then 1 else 0) +
      (if eventType = .PROCESS_EXIT ∨ eventType = .PROCESS_LAST_EXIT ∨
        eventType = .PROCESS_START_EXEC ∨ eventType = .PROCESS_BLOCKED
        then 0
        else (if x = b then 1 else 0) - (if p.temp_exec_identity = some b then 1 else 0)) := by
  simp only [ec_process_tracking_set_event_info, ec_process_tracking_get_exec_identity, hx,
    put_exec_identity_rc, set_temp_none_rc, get_exec_identity_ref_rc, get_exec_identity_ref_fst,
    fill_rc, fill_temp]
  split_ifs <;> simp_all <;> omega

/-- The PosixIdentity after any call: only the temporary slot is written, with `NULL`. -/
theorem set_event_info_posix (p : PosixIdentity) (intentType : CB_INTENT_TYPE)
    (eventType : CB_EVENT_TYPE) (event : Option CB_EVENT) (s : State) :
    (ec_process_tracking_set_event_info (some p) intentType eventType event s).posix_identity =
      some { p with temp_exec_identity := none } := by
  simp [ec_process_tracking_set_event_info]

/-- Every field of the event a successful call builds, in terms of the objects
before the call. -/
theorem set_event_info_fields (p : PosixIdentity) (x : Nat) (hx : p.exec_identity = some x)
    (intentType : CB_INTENT_TYPE) (eventType : CB_EVENT_TYPE) (ev : CB_EVENT) (s : State) :
    ∃ ev', (ec_process_tracking_set_event_info (some p) intentType eventType (some ev)
        s).event = some ev' ∧
      ev'.all_process_details .FORK = p.posix_details ∧
      ev'.all_process_details .FORK_PARENT = p.posix_parent_details ∧
      ev'.all_process_details .FORK_GRANDPARENT = p.posix_grandparent_details ∧
      ev'.all_process_details .EXEC = (s.execs x).exec_details ∧
      ev'.all_process_details .EXEC_PARENT = (s.execs x).exec_parent_details ∧
      ev'.all_process_details .EXEC_GRANDPARENT = (s.execs x).exec_grandparent_details ∧
      ev'.path_found = (s.execs x).path_found ∧
      ev'.path = (s.execs x).path ∧
      (∀ a, (s.execs x).path = some a → ev'.path_size = (s.mem.objs a).data.length + 1) ∧
      ((s.execs x).path = none → ev'.path_size = ev.path_size) ∧
      ev'.intentType = intentType ∧
      ev'.process_data = (if eventType = .PROCESS_EXIT ∨ eventType = .PROCESS_LAST_EXIT ∨
        eventType = .PROCESS_START_EXEC ∨ eventType = .PROCESS_BLOCKED
        then p.temp_exec_identity else some x) := by
  rw [set_event_info_event p x hx]
  have h := fill_event p intentType eventType ev x
    (ec_process_tracking_get_exec_identity_ref (some x) s).2
  simpa [get_exec_identity_ref_execs] using h

/-! ## Event correlation: claims C1 to C6 -/

/-- C1: for a PosixIdentity with a natural ExecIdentity and a non-null event,
`ec_process_tracking_set_event_info` attaches the temporary ExecIdentity of the
PosixIdentity to the event for PROCESS_EXIT, PROCESS_LAST_EXIT,
PROCESS_START_EXEC and PROCESS_BLOCKED, and the natural ExecIdentity for every
other event type. -/
theorem C1_attached_identity_by_event_type (p : PosixIdentity) (x : Nat)
    (hx : p.exec_identity = some x) (intentType : CB_INTENT_TYPE) (eventType : CB_EVENT_TYPE)
    (ev : CB_EVENT) (s : State) :
    ∃ ev', (ec_process_tracking_set_event_info (some p) intentType eventType (some ev)
        s).event = some ev' ∧
      ev'.process_data = (if eventType = .PROCESS_EXIT ∨ eventType = .PROCESS_LAST_EXIT ∨
        eventType = .PROCESS_START_EXEC ∨ eventType = .PROCESS_BLOCKED
        then p.temp_exec_identity else p.exec_identity) := by
  rw [set_event_info_event p x hx, hx]
  obtain ⟨ev', h, hrest⟩ := fill_event p intentType eventType ev x
    (ec_process_tracking_get_exec_identity_ref (some x) s).2
  exact ⟨ev', h, hrest.2.2.2.2.2.2.2.2.2.2.2⟩

/-- Witness of C1: a PROCESS_EXIT event for pid 5, whose natural identity is at
address 1 and whose temporary slot holds the identity at address 2. -/
theorem C1_attached_identity_by_event_type_witness :
    (examplePosix (some 1) (some 2)).exec_identity = some 1 ∧
    ∃ ev', (ec_process_tracking_set_event_info (some (examplePosix (some 1) (some 2))) 3
        .PROCESS_EXIT (some exampleEvent) (exampleState 1)).event = some ev' ∧
      ev'.process_data = (if CB_EVENT_TYPE.PROCESS_EXIT = .PROCESS_EXIT ∨
        CB_EVENT_TYPE.PROCESS_EXIT = .PROCESS_LAST_EXIT ∨
        CB_EVENT_TYPE.PROCESS_EXIT = .PROCESS_START_EXEC ∨
        CB_EVENT_TYPE.PROCESS_EXIT = .PROCESS_BLOCKED
        then (examplePosix (some 1) (some 2)).temp_exec_identity
        else (examplePosix (some 1) (some 2)).exec_identity) :=
  ⟨rfl, C1_attached_identity_by_event_type (examplePosix (some 1) (some 2)) 1 rfl 3
    .PROCESS_EXIT exampleEvent (exampleState 1)⟩

/-- C2: for every event type, a successful `ec_process_tracking_set_event_info`
fills the six lineage slots FORK, FORK_PARENT, FORK_GRANDPARENT from the
PosixIdentity and EXEC, EXEC_PARENT, EXEC_GRANDPARENT from the natural
ExecIdentity; path_found and path come from the natural ExecIdentity,
path_size is the length of that path plus one, and intentType is the argument
given. -/
theorem C2_event_lineage_and_path (p : PosixIdentity) (x : Nat)
    (hx : p.exec_identity = some x) (intentType : CB_INTENT_TYPE) (eventType : CB_EVENT_TYPE)
    (ev : CB_EVENT) (s : State) :
    ∃ ev', (ec_process_tracking_set_event_info (some p) intentType eventType (some ev)
        s).event = some ev' ∧
      ev'.all_process_details .FORK = p.posix_details ∧
      ev'.all_process_details .FORK_PARENT = p.posix_parent_details ∧
      ev'.all_process_details .FORK_GRANDPARENT = p.posix_grandparent_details ∧
      ev'.all_process_details .EXEC = (s.execs x).exec_details ∧
      ev'.all_process_details .EXEC_PARENT = (s.execs x).exec_parent_details ∧
      ev'.all_process_details .EXEC_GRANDPARENT = (s.execs x).exec_grandparent_details ∧
      ev'.path_found = (s.execs x).path_found ∧
      ev'.path = (s.execs x).path ∧
      (∀ a, (s.execs x).path = some a → ev'.path_size = (s.mem.objs a).data.length + 1) ∧
      ev'.intentType = intentType := by
  obtain ⟨ev', h, h1, h2, h3, h4, h5, h6, h7, h8, h9, _, h11, _⟩ :=
    set_event_info_fields p x hx intentType eventType ev s
  exact ⟨ev', h, h1, h2, h3, h4, h5, h6, h7, h8, h9, h11⟩

/-- Witness of C2: the exec event of pid 5, forked from pid 1, whose image
"/bin/x" is the identity at address 1. -/
theorem C2_event_lineage_and_path_witness :
    (examplePosix (some 1) none).exec_identity = some 1 ∧
    ∃ ev', (ec_process_tracking_set_event_info (some (examplePosix (some 1) none)) 3
        .PROCESS_START (some exampleEvent) (exampleState 1)).event = some ev' ∧
      ev'.all_process_details .FORK = (examplePosix (some 1) none).posix_details ∧
      ev'.all_process_details .FORK_PARENT = (examplePosix (some 1) none).posix_parent_details ∧
      ev'.all_process_details .FORK_GRANDPARENT =
        (examplePosix (some 1) none).posix_grandparent_details ∧
      ev'.all_process_details .EXEC = ((exampleState 1).execs 1).exec_details ∧
      ev'.all_process_details .EXEC_PARENT = ((exampleState 1).execs 1).exec_parent_details ∧
      ev'.all_process_details .EXEC_GRANDPARENT =
        ((exampleState 1).execs 1).exec_grandparent_details ∧
      ev'.path_found = ((exampleState 1).execs 1).path_found ∧
      ev'.path = ((exampleState 1).execs 1).path ∧
      (∀ a, ((exampleState 1).execs 1).path = some a →
        ev'.path_size = ((exampleState 1).mem.objs a).data.length + 1) ∧
      ev'.intentType = 3 :=
  ⟨rfl, C2_event_lineage_and_path (examplePosix (some 1) none) 1 rfl 3 .PROCESS_START
    exampleEvent (exampleState 1)⟩

/-- C3, as stated, fails: the PROCESS_EXIT event of pid 5, whose natural
identity (address 1) is the image of pid 5 and whose temporary slot holds the
image of pid 1 (address 2), carries the exec details of the natural identity,
which differ from those of the temporary one. -/
theorem C3_counterexample :
    ∃ ev', (ec_process_tracking_set_event_info (some (examplePosix (some 1) (some 2))) 3
        .PROCESS_EXIT (some exampleEvent) (exampleState 1)).event = some ev' ∧
      ev'.all_process_details .EXEC = ((exampleState 1).execs 1).exec_details ∧
      ev'.all_process_details .EXEC ≠ ((exampleState 1).execs 2).exec_details := by
  obtain ⟨ev', h, _, _, _, h4, _⟩ :=
    set_event_info_fields (examplePosix (some 1) (some 2)) 1 rfl 3 .PROCESS_EXIT exampleEvent
      (exampleState 1)
  refine ⟨ev', h, h4, ?_⟩
  rw [h4]
  decide

/-- C3, amended: a PROCESS_EXIT event built on a PosixIdentity whose temporary
slot holds ExecIdentity T carries T as its attached identity reference, while
its exec lineage fields EXEC, EXEC_PARENT and EXEC_GRANDPARENT are those of the
natural ExecIdentity. -/
theorem C3_exit_event_attaches_temp_keeps_natural_lineage (p : PosixIdentity) (x t : Nat)
    (hx : p.exec_identity = some x) (ht : p.temp_exec_identity = some t)
    (intentType : CB_INTENT_TYPE) (ev : CB_EVENT) (s : State) :
    ∃ ev', (ec_process_tracking_set_event_info (some p) intentType .PROCESS_EXIT (some ev)
        s).event = some ev' ∧
      ev'.process_data = some t ∧
      ev'.all_process_details .EXEC = (s.execs x).exec_details ∧
      ev'.all_process_details .EXEC_PARENT = (s.execs x).exec_parent_details ∧
      ev'.all_process_details .EXEC_GRANDPARENT = (s.execs x).exec_grandparent_details := by
  obtain ⟨ev', h, _, _, _, h4, h5, h6, _, _, _, _, _, h12⟩ :=
    set_event_info_fields p x hx intentType .PROCESS_EXIT ev s
  exact ⟨ev', h, by simpa [ht] using h12, h4, h5, h6⟩

/-- Witness of the amended C3 on the input of the counterexample. -/
theorem C3_exit_event_attaches_temp_keeps_natural_lineage_witness :
    (examplePosix (some 1) (some 2)).exec_identity = some 1 ∧
    (examplePosix (some 1) (some 2)).temp_exec_identity = some 2 ∧
    ∃ ev', (ec_process_tracking_set_event_info (some (examplePosix (some 1) (some 2))) 3
        .PROCESS_EXIT (some exampleEvent) (exampleState 1)).event = some ev' ∧
      ev'.process_data = some 2 ∧
      ev'.all_process_details .EXEC = ((exampleState 1).execs 1).exec_details ∧
      ev'.all_process_details .EXEC_PARENT = ((exampleState 1).execs 1).exec_parent_details ∧
      ev'.all_process_details .EXEC_GRANDPARENT =
        ((exampleState 1).execs 1).exec_grandparent_details :=
  ⟨rfl, rfl, C3_exit_event_attaches_temp_keeps_natural_lineage
    (examplePosix (some 1) (some 2)) 1 2 rfl rfl 3 exampleEvent (exampleState 1)⟩

/-- C4: for every non-null PosixIdentity, every event type and every event
argument, a `NULL` event and a missing natural ExecIdentity included, the
temporary ExecIdentity slot is empty when `ec_process_tracking_set_event_info`
returns, and no other field of the PosixIdentity is written. -/
theorem C4_temp_slot_always_cleared (p : PosixIdentity) (intentType : CB_INTENT_TYPE)
    (eventType : CB_EVENT_TYPE) (event : Option CB_EVENT) (s : State) :
    ∃ p', (ec_process_tracking_set_event_info (some p) intentType eventType event
        s).posix_identity = some p' ∧
      p'.temp_exec_identity = none ∧ p' = { p with temp_exec_identity := none } :=
  ⟨_, set_event_info_posix p intentType eventType event s, rfl, rfl⟩

/-- C5, as stated, fails: pid 5 has the identity at address 2 in its temporary
slot, referenced once (by that slot). After the PROCESS_EXIT event is built the
count is still 1, now held by the event, and not one less. -/
theorem C5_counterexample :
    ((exampleState 1).execs 2).reference_count = 1 ∧
    ((ec_process_tracking_set_event_info (some (examplePosix (some 1) (some 2))) 3
        .PROCESS_EXIT (some exampleEvent) (exampleState 1)).state.execs 2).reference_count = 1 ∧
    ((ec_process_tracking_set_event_info (some (examplePosix (some 1) (some 2))) 3
        .PROCESS_EXIT (some exampleEvent) (exampleState 1)).state.execs 2).reference_count ≠
      ((exampleState 1).execs 2).reference_count - 1 := by
  rw [set_event_info_rc (examplePosix (some 1) (some 2)) 1 rfl]
  decide

/-- C5, amended: when `ec_process_tracking_set_event_info` builds a
PROCESS_EXIT event (one that does not already hold T) for a PosixIdentity whose
temporary slot holds ExecIdentity T, the reference of the slot is handed over to
the event: the slot is empty, the event holds T, and the reference count of T
equals its value before the call. -/
theorem C5_exit_event_takes_over_temp_reference (p : PosixIdentity) (x t : Nat)
    (hx : p.exec_identity = some x) (ht : p.temp_exec_identity = some t)
    (intentType : CB_INTENT_TYPE) (ev : CB_EVENT) (hev : ev.process_data ≠ some t)
    (s : State) :
    ((ec_process_tracking_set_event_info (some p) intentType .PROCESS_EXIT (some ev)
        s).state.execs t).reference_count = (s.execs t).reference_count ∧
    (∃ ev', (ec_process_tracking_set_event_info (some p) intentType .PROCESS_EXIT (some ev)
        s).event = some ev' ∧ ev'.process_data = some t) ∧
    (∃ p', (ec_process_tracking_set_event_info (some p) intentType .PROCESS_EXIT (some ev)
        s).posix_identity = some p' ∧ p'.temp_exec_identity = none) := by
  refine ⟨?_, ?_, ?_⟩
  · rw [set_event_info_rc p x hx]
    simp [hev]
  · obtain ⟨ev', h, hrest⟩ := set_event_info_fields p x hx intentType .PROCESS_EXIT ev s
    exact ⟨ev', h, by simpa [ht] using hrest.2.2.2.2.2.2.2.2.2.2.2⟩
  · exact ⟨_, set_event_info_posix p intentType .PROCESS_EXIT (some ev) s, rfl⟩

/-- Witness of the amended C5 on the input of the counterexample. -/
theorem C5_exit_event_takes_over_temp_reference_witness :
    (examplePosix (some 1) (some 2)).exec_identity = some 1 ∧
    (examplePosix (some 1) (some 2)).temp_exec_identity = some 2 ∧
    exampleEvent.process_data ≠ some 2 ∧
    ((ec_process_tracking_set_event_info (some (examplePosix (some 1) (some 2))) 3
        .PROCESS_EXIT (some exampleEvent) (exampleState 1)).state.execs 2).reference_count =
      ((exampleState 1).execs 2).reference_count :=
  ⟨rfl, rfl, by decide,
    (C5_exit_event_takes_over_temp_reference (examplePosix (some 1) (some 2)) 1 2 rfl rfl 3
      exampleEvent (by decide) (exampleState 1)).1⟩

/-- C6, as stated, fails: pid 5 was forked without exec, so its natural
identity (address 1) is also the one staged in its temporary slot, referenced
twice. After the call with a `NULL` event the count of the natural identity is
1, not 2. -/
theorem C6_counterexample :
    (examplePosix (some 1) (some 1)).exec_identity = some 1 ∧
    ((exampleState 2).execs 1).reference_count = 2 ∧
    ((ec_process_tracking_set_event_info (some (examplePosix (some 1) (some 1))) 3
        .PROCESS_START none (exampleState 2)).state.execs 1).reference_count = 1 := by
  rw [set_event_info_null_event_rc]
  decide

/-- C6, amended: a call of `ec_process_tracking_set_event_info` with a `NULL`
event on a non-null PosixIdentity is a pure cleanup. There is no event to
write to, and the only reference released is the one the temporary slot held:
the count of the identity in the slot drops by exactly one, and every other
count, that of the natural identity included when it is not the identity in the
slot, is as before; with an empty slot no count changes. -/
theorem C6_null_event_releases_only_temp (p : PosixIdentity) (intentType : CB_INTENT_TYPE)
    (eventType : CB_EVENT_TYPE) (s : State) :
    (ec_process_tracking_set_event_info (some p) intentType eventType none s).event = none ∧
    (ec_process_tracking_set_event_info (some p) intentType eventType none s).posix_identity =
      some { p with temp_exec_identity := none } ∧
    ∀ b, ((ec_process_tracking_set_event_info (some p) intentType eventType none s).state.execs
        b).reference_count =
      (s.execs b).reference_count - (if p.temp_exec_identity = some b then 1 else 0) := by
  refine ⟨?_, set_event_info_posix p intentType eventType none s, ?_⟩
  · simp [ec_process_tracking_set_event_info]
  · intro b
    exact set_event_info_null_event_rc p intentType eventType s b

/-! ## Operation counters: claim C7 -/

/-- C7, the code at FILE_WRITE: the arm has no `break` and runs into the
FILE_CLOSE arm, so for every PosixIdentity one FILE_WRITE event raises
file_op_cnt by two and file_close by one; file_write rises by one and
file_open by one exactly when file_write was zero. -/
theorem C7_file_write_falls_through_to_close (p : PosixIdentity) (action : Int)
    (g : ProcessTrackingData) :
    (ec_process_tracking_update_op_cnts p .FILE_WRITE action g).1.file_op_cnt =
      p.file_op_cnt + 2 ∧
    (ec_process_tracking_update_op_cnts p .FILE_WRITE action g).1.file_close =
      p.file_close + 1 ∧
    (ec_process_tracking_update_op_cnts p .FILE_WRITE action g).1.file_write =
      p.file_write + 1 ∧
    (ec_process_tracking_update_op_cnts p .FILE_WRITE action g).1.file_open =
      p.file_open + (if p.file_write = 0 then 1 else 0) := by
  simp only [ec_process_tracking_update_op_cnts, op_cnts_file_close]
  refine ⟨?_, ?_, ?_, ?_⟩ <;> split_ifs <;> simp

/-! ## Lemmas on the File Tracking Table -/

theorem find_erase_same {α : Type} [DecidableEq α] (keyOf : Nat → α) (k : α) :
    ∀ (l : List Nat) (a : Nat), l.find? (fun b => decide (keyOf b = k)) = some a →
      (l.map keyOf).Nodup → (l.erase a).find? (fun b => decide (keyOf b = k)) = none := by
  intro l
  induction l with
  | nil => intro a h; simp at h
  | cons b l ih =>
    intro a h hnd
    rw [List.map_cons, List.nodup_cons] at hnd
    by_cases hb : keyOf b = k
    · have hab : b = a := by simpa [List.find?_cons, hb] using h
      subst hab
      rw [List.erase_cons_head, List.find?_eq_none]
      intro c hc
      have : keyOf c ≠ keyOf b := fun e => hnd.1 (e ▸ List.mem_map_of_mem keyOf hc)
      simpa [hb] using this
    · have h' : l.find? (fun b => decide (keyOf b = k)) = some a := by
        simpa [List.find?_cons, hb] using h
      have hka : keyOf a = k := by simpa using List.find?_some h'
      have hne : b ≠ a := fun e => hb (e ▸ hka)
      rw [List.erase_cons_tail (by simpa using hne)]
      simp [List.find?_cons, hb, ih a h' hnd.2]

theorem find_erase_other {α : Type} [DecidableEq α] (keyOf : Nat → α) (k : α) (a : Nat)
    (ha : keyOf a ≠ k) :
    ∀ (l : List Nat), (l.erase a).find? (fun b => decide (keyOf b = k)) =
      l.find? (fun b => decide (keyOf b = k)) := by
  intro l
  induction l with
  | nil => simp
  | cons b l ih =>
    by_cases hba : b = a
    · subst hba
      rw [List.erase_cons_head]
      simp [List.find?_cons, ha]
    · rw [List.erase_cons_tail (by simpa using hba)]
      simp [List.find?_cons, ih]

theorem hashtbl_find_key (t : HashTbl) (k : FILE_PROCESS_KEY) (a : Nat)
    (h : hashtbl_find t k = some a) : (t.heap a).key = k ∧ a ∈ t.nodes := by
  unfold hashtbl_find at h
  exact ⟨by simpa using List.find?_some h, List.mem_of_find?_eq_some h⟩

theorem hashtbl_find_congr (t t' : HashTbl) (k : FILE_PROCESS_KEY)
    (hn : t'.nodes = t.nodes) (hk : ∀ b, (t'.heap b).key = (t.heap b).key) :
    hashtbl_find t' k = hashtbl_find t k := by
  unfold hashtbl_find
  rw [hn]
  congr 1
  funext b
  rw [hk b]


theorem close_absent (pid device inode : Nat) (fs : FileState)
    (h : hashtbl_find fs.tbl { pid := pid, device := device, inode := inode } = none) :
    ec_file_process_status_close pid device inode fs = fs := by
  simp [ec_file_process_status_close, ec_hashtbl_del_by_key_generic, h, ec_hashtbl_put_generic]

theorem close_present (pid device inode : Nat) (fs : FileState) (a : Nat)
    (h : hashtbl_find fs.tbl { pid := pid, device := device, inode := inode } = some a) :
    (ec_file_process_status_close pid device inode fs).tbl.nodes = fs.tbl.nodes.erase a ∧
    ((ec_file_process_status_close pid device inode fs).tbl.heap a).reference_count =
      (fs.tbl.heap a).reference_count - 1 ∧
    (∀ b, ((ec_file_process_status_close pid device inode fs).tbl.heap b).key =
      (fs.tbl.heap b).key) ∧
    (∀ b, b ≠ a → (ec_file_process_status_close pid device inode fs).tbl.heap b =
      fs.tbl.heap b) := by
  simp only [ec_file_process_status_close, ec_hashtbl_del_by_key_generic, h,
    ec_hashtbl_put_generic, ec_hashtbl_free_generic, __ec_file_tracking_delete_callback]
  split <;> simp +contextual [heapSet_apply] <;> intro b <;> split <;> simp_all


@[simp]
theorem get_generic_fst (k : FILE_PROCESS_KEY) (fs : FileState) :
    (ec_hashtbl_get_generic k fs).1 = hashtbl_find fs.tbl k := by
  unfold ec_hashtbl_get_generic
  split <;> simp_all

theorem close_find_same (pid device inode : Nat) (fs : FileState) (huniq : uniqueKeys fs.tbl) :
    hashtbl_find (ec_file_process_status_close pid device inode fs).tbl
      { pid := pid, device := device, inode := inode } = none := by
  cases hf : hashtbl_find fs.tbl { pid := pid, device := device, inode := inode } with
  | none => rw [close_absent pid device inode fs hf]; exact hf
  | some a =>
    obtain ⟨hn, _, hk, _⟩ := close_present pid device inode fs a hf
    rw [hashtbl_find_congr { fs.tbl with nodes := fs.tbl.nodes.erase a } _ _ hn hk]
    exact find_erase_same (fun b => (fs.tbl.heap b).key) _ fs.tbl.nodes a hf huniq

theorem close_find_other (pid device inode : Nat) (fs : FileState) (k : FILE_PROCESS_KEY)
    (hk : k ≠ { pid := pid, device := device, inode := inode }) :
    hashtbl_find (ec_file_process_status_close pid device inode fs).tbl k =
      hashtbl_find fs.tbl k ∧
    ∀ b, hashtbl_find fs.tbl k = some b →
      (ec_file_process_status_close pid device inode fs).tbl.heap b = fs.tbl.heap b := by
  cases hf : hashtbl_find fs.tbl { pid := pid, device := device, inode := inode } with
  | none => rw [close_absent pid device inode fs hf]; exact ⟨rfl, fun _ _ => rfl⟩
  | some a =>
    obtain ⟨hn, _, hkeys, hframe⟩ := close_present pid device inode fs a hf
    have hka := (hashtbl_find_key fs.tbl _ a hf).1
    constructor
    · rw [hashtbl_find_congr { fs.tbl with nodes := fs.tbl.nodes.erase a } _ _ hn hkeys]
      have hne : (fun b => (fs.tbl.heap b).key) a ≠ k := by
        show (fs.tbl.heap a).key ≠ k
        rw [hka]
        exact Ne.symm hk
      exact find_erase_other (fun b => (fs.tbl.heap b).key) k a hne fs.tbl.nodes
    · intro b hb
      apply hframe
      intro e
      subst e
      exact hk ((hashtbl_find_key fs.tbl _ b hb).1.symm.trans hka)

theorem hashtbl_find_none_iff (t : HashTbl) (k : FILE_PROCESS_KEY) :
    hashtbl_find t k = none ↔ ∀ b ∈ t.nodes, (t.heap b).key ≠ k := by
  simp [hashtbl_find, List.find?_eq_none]

theorem hashtbl_find_head (t : HashTbl) (k : FILE_PROCESS_KEY) (a : Nat) (l : List Nat)
    (hn : t.nodes = a :: l) (hk : (t.heap a).key = k) : hashtbl_find t k = some a := by
  simp [hashtbl_find, hn, List.find?_cons, hk]

/-- Opening a key that is linked returns its node with one more reference. -/
theorem open_present (pid device inode : Nat) (path : Option CString) (isSpecialFile : Bool)
    (allocOk dupOk : Bool) (env : FileState → FileState) (fs : FileState) (a : Nat)
    (h : hashtbl_find fs.tbl { pid := pid, device := device, inode := inode } = some a) :
    ec_file_process_status_open pid device inode path isSpecialFile allocOk dupOk env fs =
      (some a, { fs with tbl := { fs.tbl with heap := (heapSet fs.tbl.heap a
        { fs.tbl.heap a with reference_count := (fs.tbl.heap a).reference_count + 1 }) } }) := by
  simp [ec_file_process_status_open, ec_file_process_get, ec_hashtbl_get_generic, h]

/-- Opening a key that is not linked, when a node is allocated and no other
thread interferes, links the fresh node. -/
theorem open_absent (pid device inode : Nat) (path : Option CString) (isSpecialFile : Bool)
    (dupOk : Bool) (fs : FileState) (hfresh : fs.tbl.next ∉ fs.tbl.nodes)
    (h : hashtbl_find fs.tbl { pid := pid, device := device, inode := inode } = none) :
    ec_file_process_status_open pid device inode path isSpecialFile true dupOk id fs =
      (some fs.tbl.next,
        { tbl :=
            { heap := heapSet fs.tbl.heap fs.tbl.next
                { key := { pid := pid, device := device, inode := inode },
                  reference_count := 2,
                  path := (ec_mem_cache_strdup path dupOk fs.mem).1,
                  isSpecialFile := isSpecialFile,
                  didReadType := false,
                  status := .OPENED },
              nodes := fs.tbl.next :: fs.tbl.nodes,
              next := fs.tbl.next + 1,
              freed := fs.tbl.freed },
          mem := (ec_mem_cache_strdup path dupOk fs.mem).2 }) := by
  have hnone : hashtbl_find
      { heap := heapSet fs.tbl.heap fs.tbl.next
          { key := { pid := pid, device := device, inode := inode },
            reference_count := 1,
            path := (ec_mem_cache_strdup path dupOk fs.mem).1,
            isSpecialFile := isSpecialFile,
            didReadType := false,
            status := .OPENED },
        nodes := fs.tbl.nodes, next := fs.tbl.next + 1, freed := fs.tbl.freed }
      { pid := pid, device := device, inode := inode } = none := by
    rw [hashtbl_find_none_iff] at h ⊢
    intro b hb
    have hne : b ≠ fs.tbl.next := fun e => hfresh (e ▸ hb)
    simpa [heapSet_apply, hne] using h b hb
  simp [ec_file_process_status_open, ec_file_process_get, ec_hashtbl_get_generic, h,
    ec_hashtbl_alloc_generic, ec_hashtbl_add_generic, hnone]
  funext b
  simp [heapSet_apply]
  split <;> simp

/-- The path string of the node a successful duplication fills. -/
theorem strdup_data (path : Option CString) (m : MemCache) :
    (ec_mem_cache_strdup path true m).1.map
      (fun p => ((ec_mem_cache_strdup path true m).2.objs p).data) = path := by
  cases path <;> simp [ec_mem_cache_strdup]

/-- A node the table accepts is the one found under its key afterwards. -/
theorem add_generic_linked (a : Nat) (fs : FileState)
    (h : ¬ (ec_hashtbl_add_generic a fs).1 < 0) :
    hashtbl_find (ec_hashtbl_add_generic a fs).2.tbl (fs.tbl.heap a).key = some a := by
  cases hf : hashtbl_find fs.tbl (fs.tbl.heap a).key with
  | some b => simp [ec_hashtbl_add_generic, hf] at h
  | none =>
    simp only [ec_hashtbl_add_generic, hf]
    exact hashtbl_find_head _ _ _ _ rfl (by simp)

/-- An entry returned by open is the node linked under the key. -/
theorem open_returns_linked (pid device inode : Nat) (path : Option CString)
    (isSpecialFile : Bool) (allocOk dupOk : Bool) (env : FileState → FileState)
    (fs : FileState) (a : Nat)
    (h : (ec_file_process_status_open pid device inode path isSpecialFile allocOk dupOk env
      fs).1 = some a) :
    hashtbl_find
      (ec_file_process_status_open pid device inode path isSpecialFile allocOk dupOk env fs).2.tbl
      { pid := pid, device := device, inode := inode } = some a := by
  cases hf : hashtbl_find fs.tbl { pid := pid, device := device, inode := inode } with
  | some a0 =>
    rw [open_present pid device inode path isSpecialFile allocOk dupOk env fs a0 hf] at h ⊢
    have ha : a0 = a := by simpa using h
    subst ha
    rw [← hf]
    apply hashtbl_find_congr
    · rfl
    · intro b
      simp only [heapSet_apply]
      split
      · rename_i e; subst e; rfl
      · rfl
  | none =>
    cases allocOk with
    | false =>
      simp [ec_file_process_status_open, ec_file_process_get, ec_hashtbl_get_generic, hf,
        ec_hashtbl_alloc_generic] at h
    | true =>
      simp only [ec_file_process_status_open, ec_file_process_get, ec_hashtbl_get_generic, hf,
        ec_hashtbl_alloc_generic, if_true] at h ⊢
      split at h
      · simp at h
      · rename_i hc
        simp only [Option.some.injEq] at h
        subst h
        rw [if_neg hc]
        have := add_generic_linked _ _ hc
        simpa using this

/-! ## The table invariant is kept -/

/-- The empty table satisfies the invariant. -/
theorem tableInv_emptyTable (heap : Nat → FILE_PROCESS_VALUE) : tableInv (emptyTable heap) := by
  simp [tableInv, uniqueKeys, emptyTable]

/-- The invariant only depends on the linked nodes and their keys. -/
theorem tableInv_congr (t t' : HashTbl) (hn : t'.nodes = t.nodes) (hx : t.next ≤ t'.next)
    (hk : ∀ b ∈ t.nodes, (t'.heap b).key = (t.heap b).key) (h : tableInv t) : tableInv t' := by
  obtain ⟨hu, hf⟩ := h
  refine ⟨?_, ?_⟩
  · unfold uniqueKeys at hu ⊢
    rw [hn]
    have : t.nodes.map (fun a => (t'.heap a).key) = t.nodes.map (fun a => (t.heap a).key) :=
      List.map_congr_left hk
    rw [this]
    exact hu
  · intro a ha
    rw [hn] at ha
    exact Nat.lt_of_lt_of_le (hf a ha) hx

/-- Closing allocates nothing. -/
theorem close_next (pid device inode : Nat) (fs : FileState) :
    (ec_file_process_status_close pid device inode fs).tbl.next = fs.tbl.next := by
  cases hf : hashtbl_find fs.tbl { pid := pid, device := device, inode := inode } with
  | none => rw [close_absent pid device inode fs hf]
  | some a =>
    simp only [ec_file_process_status_close, ec_hashtbl_del_by_key_generic, hf,
      ec_hashtbl_put_generic, ec_hashtbl_free_generic, __ec_file_tracking_delete_callback]
    split <;> rfl

/-- Closing keeps the table invariant. -/
theorem close_preserves_tableInv (pid device inode : Nat) (fs : FileState)
    (h : tableInv fs.tbl) : tableInv (ec_file_process_status_close pid device inode fs).tbl := by
  cases hf : hashtbl_find fs.tbl { pid := pid, device := device, inode := inode } with
  | none => rw [close_absent pid device inode fs hf]; exact h
  | some a =>
    obtain ⟨hn, _, hk, _⟩ := close_present pid device inode fs a hf
    obtain ⟨hu, hfr⟩ := h
    refine ⟨?_, ?_⟩
    · unfold uniqueKeys at hu ⊢
      rw [hn]
      have : (fs.tbl.nodes.erase a).map
          (fun b => ((ec_file_process_status_close pid device inode fs).tbl.heap b).key) =
          (fs.tbl.nodes.erase a).map (fun b => (fs.tbl.heap b).key) :=
        List.map_congr_left (fun b _ => hk b)
      rw [this]
      exact hu.sublist ((List.erase_sublist a fs.tbl.nodes).map _)
    · intro b hb
      rw [hn] at hb
      rw [close_next]
      exact hfr b (List.mem_of_mem_erase hb)

/-- Opening, run alone, keeps the table invariant, whatever the allocations do. -/
theorem open_preserves_tableInv (pid device inode : Nat) (path : Option CString)
    (isSpecialFile allocOk dupOk : Bool) (fs : FileState) (h : tableInv fs.tbl) :
    tableInv (ec_file_process_status_open pid device inode path isSpecialFile allocOk dupOk id
      fs).2.tbl := by
  have hfresh : fs.tbl.next ∉ fs.tbl.nodes := fun hmem => Nat.lt_irrefl _ (h.2 _ hmem)
  cases hf : hashtbl_find fs.tbl { pid := pid, device := device, inode := inode } with
  | some a =>
    rw [open_present pid device inode path isSpecialFile allocOk dupOk id fs a hf]
    refine tableInv_congr fs.tbl _ rfl (Nat.le_refl _) ?_ h
    intro b _
    simp only [heapSet_apply]
    split
    · rename_i e; subst e; rfl
    · rfl
  | none =>
    cases allocOk with
    | false =>
      simpa [ec_file_process_status_open, ec_file_process_get, ec_hashtbl_get_generic, hf,
        ec_hashtbl_alloc_generic] using h
    | true =>
      rw [open_absent pid device inode path isSpecialFile dupOk fs hfresh hf]
      have hkeys : ∀ (v : FILE_PROCESS_VALUE), ∀ b ∈ fs.tbl.nodes,
          (heapSet fs.tbl.heap fs.tbl.next v b).key = (fs.tbl.heap b).key := by
        intro v b hb
        have : b ≠ fs.tbl.next := fun e => hfresh (e ▸ hb)
        simp [heapSet_apply, this]
      rw [hashtbl_find_none_iff] at hf
      obtain ⟨hu, hfr⟩ := h
      refine ⟨?_, ?_⟩
      · unfold uniqueKeys at hu ⊢
        simp only [List.map_cons, List.nodup_cons, heapSet_same]
        rw [List.map_congr_left (fun b hb => hkeys _ b hb)]
        refine ⟨?_, hu⟩
        intro hmem
        obtain ⟨b, hb, hkb⟩ := List.mem_map.1 hmem
        exact hf b hb hkb
      · intro b hb
        rcases List.mem_cons.1 hb with e | hb'
        · rw [e]; exact Nat.lt_succ_self _
        · exact Nat.lt_succ_of_lt (hfr b hb')

/-! ## File Tracking Table: claims C8 to C10 -/

/-- C8: for a key (pid, device, inode) that is not in the File Tracking Table,
`ec_file_process_status_open` with that key, a path and an isSpecialFile flag
(both allocations finding memory, no other thread in between), followed
immediately by `ec_file_process_get` with the same key, returns the entry that
open returned; its path equals the given path, its isSpecialFile equals the
given flag, its status is OPENED and its didReadType is false. -/
theorem C8_open_then_get_round_trip (pid device inode : Nat) (path : Option CString)
    (isSpecialFile : Bool) (fs : FileState) (hinv : tableInv fs.tbl)
    (habsent : hashtbl_find fs.tbl { pid := pid, device := device, inode := inode } = none)
    (o g : Ptr × FileState)
    (ho : o = ec_file_process_status_open pid device inode path isSpecialFile true true id fs)
    (hg : g = ec_file_process_get pid device inode o.2) :
    ∃ a, o.1 = some a ∧ g.1 = some a ∧
      entryPath g.2 a = path ∧
      (g.2.tbl.heap a).isSpecialFile = isSpecialFile ∧
      (g.2.tbl.heap a).status = .OPENED ∧
      (g.2.tbl.heap a).didReadType = false := by
  have hfresh : fs.tbl.next ∉ fs.tbl.nodes := fun hmem => Nat.lt_irrefl _ (hinv.2 _ hmem)
  rw [open_absent pid device inode path isSpecialFile true fs hfresh habsent] at ho
  subst ho
  subst hg
  have hf : hashtbl_find
      { heap := heapSet fs.tbl.heap fs.tbl.next
          { key := { pid := pid, device := device, inode := inode },
            reference_count := 2,
            path := (ec_mem_cache_strdup path true fs.mem).1,
            isSpecialFile := isSpecialFile,
            didReadType := false,
            status := .OPENED },
        nodes := fs.tbl.next :: fs.tbl.nodes, next := fs.tbl.next + 1, freed := fs.tbl.freed }
      { pid := pid, device := device, inode := inode } = some fs.tbl.next :=
    hashtbl_find_head _ _ _ _ rfl (by simp)
  refine ⟨fs.tbl.next, rfl, ?_, ?_, ?_, ?_, ?_⟩ <;>
    simp [ec_file_process_get, ec_hashtbl_get_generic, hf, entryPath, strdup_data]

/-- Witness of C8: pid 6 opens the file (8, 42) as "/bin/x", a special file,
in a table that only holds the entry of pid 5. -/
theorem C8_open_then_get_round_trip_witness :
    tableInv exampleFileState.tbl ∧
    hashtbl_find exampleFileState.tbl { pid := 6, device := 8, inode := 42 } = none ∧
    ∃ a, (ec_file_process_status_open 6 8 42 (some "/bin/x".toList) true true true id
        exampleFileState).1 = some a ∧
      (ec_file_process_get 6 8 42 (ec_file_process_status_open 6 8 42 (some "/bin/x".toList)
        true true true id exampleFileState).2).1 = some a ∧
      entryPath (ec_file_process_get 6 8 42 (ec_file_process_status_open 6 8 42
        (some "/bin/x".toList) true true true id exampleFileState).2).2 a =
        some "/bin/x".toList ∧
      ((ec_file_process_get 6 8 42 (ec_file_process_status_open 6 8 42 (some "/bin/x".toList)
        true true true id exampleFileState).2).2.tbl.heap a).isSpecialFile = true ∧
      ((ec_file_process_get 6 8 42 (ec_file_process_status_open 6 8 42 (some "/bin/x".toList)
        true true true id exampleFileState).2).2.tbl.heap a).status = .OPENED ∧
      ((ec_file_process_get 6 8 42 (ec_file_process_status_open 6 8 42 (some "/bin/x".toList)
        true true true id exampleFileState).2).2.tbl.heap a).didReadType = false :=
  ⟨(by decide), by decide,
    C8_open_then_get_round_trip 6 8 42 (some "/bin/x".toList) true exampleFileState
      (by decide) (by decide) _ _ rfl rfl⟩

/-- C9: for every key (pid, device, inode), after
`ec_file_process_status_close` a following `ec_file_process_get` with the same
key returns not-found. The close removes only that key: every other key finds
the same entry as before, unchanged. It releases exactly the one reference the
table held: the count of the removed entry drops by one and no other count
changes. When the key is absent the close changes nothing. -/
theorem C9_close_then_get_not_found (pid device inode : Nat) (fs : FileState)
    (hinv : tableInv fs.tbl) (c : FileState)
    (hc : c = ec_file_process_status_close pid device inode fs) :
    (ec_file_process_get pid device inode c).1 = none ∧
    (∀ k, k ≠ { pid := pid, device := device, inode := inode } →
      hashtbl_find c.tbl k = hashtbl_find fs.tbl k ∧
      ∀ b, hashtbl_find fs.tbl k = some b → c.tbl.heap b = fs.tbl.heap b) ∧
    (∀ a, hashtbl_find fs.tbl { pid := pid, device := device, inode := inode } = some a →
      (c.tbl.heap a).reference_count = (fs.tbl.heap a).reference_count - 1 ∧
      ∀ b, b ≠ a → (c.tbl.heap b).reference_count = (fs.tbl.heap b).reference_count) ∧
    (hashtbl_find fs.tbl { pid := pid, device := device, inode := inode } = none → c = fs) := by
  subst hc
  refine ⟨?_, ?_, ?_, ?_⟩
  · simp only [ec_file_process_get, get_generic_fst]
    exact close_find_same pid device inode fs hinv.1
  · intro k hk
    exact close_find_other pid device inode fs k hk
  · intro a ha
    obtain ⟨_, hrc, _, hframe⟩ := close_present pid device inode fs a ha
    exact ⟨hrc, fun b hb => by rw [hframe b hb]⟩
  · exact close_absent pid device inode fs

/-- Witness of C9: pid 5 closes the file (8, 42), the one entry of the table. -/
theorem C9_close_then_get_not_found_witness :
    tableInv exampleFileState.tbl ∧
    (ec_file_process_get 5 8 42 (ec_file_process_status_close 5 8 42 exampleFileState)).1 =
      none :=
  ⟨(by decide),
    (C9_close_then_get_not_found 5 8 42 exampleFileState
      (by decide) _ rfl).1⟩

/-- C10: when `ec_file_process_status_open` has returned an entry for a key,
a second call with the same key returns that same entry, whatever path, flag,
allocation outcome or interference it is given. The second call links no new
node and allocates nothing, leaves the path, isSpecialFile, didReadType and
status of the entry as they were, adds exactly one reference to it, and leaves
every other node untouched. -/
theorem C10_open_twice_same_entry (pid device inode : Nat) (path path2 : Option CString)
    (isSpecialFile isSpecialFile2 allocOk dupOk allocOk2 dupOk2 : Bool)
    (env env2 : FileState → FileState) (fs : FileState) (a : Nat)
    (o1 o2 : Ptr × FileState)
    (h1 : o1 = ec_file_process_status_open pid device inode path isSpecialFile allocOk dupOk
      env fs)
    (h2 : o2 = ec_file_process_status_open pid device inode path2 isSpecialFile2 allocOk2
      dupOk2 env2 o1.2)
    (ha : o1.1 = some a) :
    o2.1 = some a ∧
    o2.2.tbl.nodes = o1.2.tbl.nodes ∧
    o2.2.tbl.next = o1.2.tbl.next ∧
    o2.2.mem = o1.2.mem ∧
    (o2.2.tbl.heap a).path = (o1.2.tbl.heap a).path ∧
    (o2.2.tbl.heap a).isSpecialFile = (o1.2.tbl.heap a).isSpecialFile ∧
    (o2.2.tbl.heap a).didReadType = (o1.2.tbl.heap a).didReadType ∧
    (o2.2.tbl.heap a).status = (o1.2.tbl.heap a).status ∧
    (o2.2.tbl.heap a).key = (o1.2.tbl.heap a).key ∧
    (o2.2.tbl.heap a).reference_count = (o1.2.tbl.heap a).reference_count + 1 ∧
    ∀ b, b ≠ a → o2.2.tbl.heap b = o1.2.tbl.heap b := by
  have hl : hashtbl_find o1.2.tbl { pid := pid, device := device, inode := inode } = some a := by
    rw [h1] at ha ⊢
    exact open_returns_linked pid device inode path isSpecialFile allocOk dupOk env fs a ha
  rw [open_present pid device inode path2 isSpecialFile2 allocOk2 dupOk2 env2 _ a hl] at h2
  subst h2
  refine ⟨rfl, rfl, rfl, rfl, ?_, ?_, ?_, ?_, ?_, ?_, ?_⟩ <;> simp [heapSet_apply]
  intro b hb
  simp [hb]

/-- Witness of C10: pid 6 opens the file (8, 42) as "/bin/x" and then again as
"/tmp/y" with the other flag; both calls return the node at address 1. -/
theorem C10_open_twice_same_entry_witness :
    (ec_file_process_status_open 6 8 42 (some "/bin/x".toList) false true true id
      exampleFileState).1 = some 1 ∧
    (ec_file_process_status_open 6 8 42 (some "/tmp/y".toList) true true true id
      (ec_file_process_status_open 6 8 42 (some "/bin/x".toList) false true true id
        exampleFileState).2).1 = some 1 :=
  ⟨by decide, (C10_open_twice_same_entry 6 8 42 (some "/bin/x".toList) (some "/tmp/y".toList)
    false true true true true true id id exampleFileState 1 _ _ rfl rfl (by decide)).1⟩

/-! ## File Tracking Table: claims C11 and C12 -/

/-- Searching with two predicates that agree on the list. -/
theorem find_congr_mem (p q : Nat → Bool) :
    ∀ (l : List Nat), (∀ b ∈ l, p b = q b) → l.find? p = l.find? q := by
  intro l
  induction l with
  | nil => intro _; rfl
  | cons a l ih =>
    intro h
    have ha : p a = q a := h a (List.mem_cons_self a l)
    have hl : l.find? p = l.find? q := ih (fun b hb => h b (List.mem_cons_of_mem a hb))
    simp [List.find?_cons, ha, hl]

/-- The lookup only looks at the keys of the linked nodes. -/
theorem hashtbl_find_congr_mem (t t' : HashTbl) (k : FILE_PROCESS_KEY)
    (hn : t'.nodes = t.nodes) (hk : ∀ b ∈ t.nodes, (t'.heap b).key = (t.heap b).key) :
    hashtbl_find t' k = hashtbl_find t k := by
  unfold hashtbl_find
  rw [hn]
  apply find_congr_mem
  intro b hb
  rw [hk b hb]

/-- Opening a key that another thread links between the lookup and the insert:
the insert is rejected, the local node is freed and `NULL` is returned. -/
theorem open_race_lost (pid device inode : Nat) (path : Option CString) (isSpecialFile : Bool)
    (dupOk : Bool) (env : FileState → FileState) (fs : FileState) (b : Nat)
    (hmiss : hashtbl_find fs.tbl { pid := pid, device := device, inode := inode } = none)
    (hnow : hashtbl_find (env fs).tbl { pid := pid, device := device, inode := inode } = some b)
    (hfresh : (env fs).tbl.next ∉ (env fs).tbl.nodes) :
    ec_file_process_status_open pid device inode path isSpecialFile true dupOk env fs =
      (none,
        { tbl :=
            { heap := heapSet (env fs).tbl.heap (env fs).tbl.next
                { key := { pid := pid, device := device, inode := inode },
                  reference_count := 1,
                  path := (ec_mem_cache_strdup path dupOk (env fs).mem).1,
                  isSpecialFile := isSpecialFile,
                  didReadType := false,
                  status := .OPENED },
              nodes := (env fs).tbl.nodes,
              next := (env fs).tbl.next + 1,
              freed := (env fs).tbl.next :: (env fs).tbl.freed },
          mem := (ec_mem_cache_strdup path dupOk (env fs).mem).2 }) := by
  have hsome : hashtbl_find
      { heap := heapSet (env fs).tbl.heap (env fs).tbl.next
          { key := { pid := pid, device := device, inode := inode },
            reference_count := 1,
            path := (ec_mem_cache_strdup path dupOk (env fs).mem).1,
            isSpecialFile := isSpecialFile,
            didReadType := false,
            status := .OPENED },
        nodes := (env fs).tbl.nodes, next := (env fs).tbl.next + 1, freed := (env fs).tbl.freed }
      { pid := pid, device := device, inode := inode } = some b := by
    rw [← hnow]
    apply hashtbl_find_congr_mem
    · rfl
    · intro c hc
      have hne : c ≠ (env fs).tbl.next := fun e => hfresh (e ▸ hc)
      simp [heapSet_apply, hne]
  simp [ec_file_process_status_open, ec_file_process_get, ec_hashtbl_get_generic, hmiss,
    ec_hashtbl_alloc_generic, ec_hashtbl_add_generic, hsome, ec_hashtbl_free_generic]

/-- When the node allocation fails nothing is changed. -/
theorem open_alloc_failed (pid device inode : Nat) (path : Option CString)
    (isSpecialFile dupOk : Bool) (fs : FileState)
    (h : hashtbl_find fs.tbl { pid := pid, device := device, inode := inode } = none) :
    ec_file_process_status_open pid device inode path isSpecialFile false dupOk id fs =
      (none, fs) := by
  simp [ec_file_process_status_open, ec_file_process_get, ec_hashtbl_get_generic, h,
    ec_hashtbl_alloc_generic]

/-- C11, as stated, fails: pid 6 opens the file (8, 42); its lookup misses,
another thread then links an entry for the same key (the node at address 1),
and the call returns `NULL`, not that entry. -/
theorem C11_counterexample :
    hashtbl_find exampleFileState.tbl { pid := 6, device := 8, inode := 42 } = none ∧
    hashtbl_find (exampleRacer exampleFileState).tbl { pid := 6, device := 8, inode := 42 } =
      some 1 ∧
    (ec_file_process_status_open 6 8 42 (some "/bin/x".toList) true true true exampleRacer
      exampleFileState).1 = none := by
  decide

/-- C11, amended: when `ec_file_process_status_open` loses an insert race (its
lookup misses, but an entry with the same key is linked when it inserts), it
discards its local node and returns `NULL`; the pre-existing entry stays
linked under the key and is not touched. -/
theorem C11_race_loss_returns_null (pid device inode : Nat) (path : Option CString)
    (isSpecialFile dupOk : Bool) (env : FileState → FileState) (fs : FileState) (b : Nat)
    (hmiss : hashtbl_find fs.tbl { pid := pid, device := device, inode := inode } = none)
    (hnow : hashtbl_find (env fs).tbl { pid := pid, device := device, inode := inode } = some b)
    (hinv : tableInv (env fs).tbl)
    (o : Ptr × FileState)
    (ho : o = ec_file_process_status_open pid device inode path isSpecialFile true dupOk env fs) :
    o.1 = none ∧
    (env fs).tbl.next ∈ o.2.tbl.freed ∧
    o.2.tbl.nodes = (env fs).tbl.nodes ∧
    hashtbl_find o.2.tbl { pid := pid, device := device, inode := inode } = some b ∧
    o.2.tbl.heap b = (env fs).tbl.heap b := by
  have hfresh : (env fs).tbl.next ∉ (env fs).tbl.nodes :=
    fun hmem => Nat.lt_irrefl _ (hinv.2 _ hmem)
  have hb : b ≠ (env fs).tbl.next :=
    fun e => hfresh (e ▸ (hashtbl_find_key _ _ b hnow).2)
  rw [open_race_lost pid device inode path isSpecialFile dupOk env fs b hmiss hnow hfresh] at ho
  subst ho
  refine ⟨rfl, by simp, rfl, ?_, by simp [heapSet_apply, hb]⟩
  rw [← hnow]
  apply hashtbl_find_congr_mem
  · rfl
  · intro c hc
    have hne : c ≠ (env fs).tbl.next := fun e => hfresh (e ▸ hc)
    simp [heapSet_apply, hne]

/-- Witness of the amended C11 on the input of the counterexample. -/
theorem C11_race_loss_returns_null_witness :
    hashtbl_find exampleFileState.tbl { pid := 6, device := 8, inode := 42 } = none ∧
    hashtbl_find (exampleRacer exampleFileState).tbl { pid := 6, device := 8, inode := 42 } =
      some 1 ∧
    tableInv (exampleRacer exampleFileState).tbl ∧
    (ec_file_process_status_open 6 8 42 (some "/bin/x".toList) true true true exampleRacer
      exampleFileState).1 = none :=
  ⟨by decide, by decide, by decide,
    (C11_race_loss_returns_null 6 8 42 (some "/bin/x".toList) true true exampleRacer
      exampleFileState 1 (by decide) (by decide) (by decide) _ rfl).1⟩

/-- C12, as stated, fails: pid 6 opens the file (8, 42) as "/bin/x" and the
duplication of the path finds no memory. The call returns the new entry (the
node at address 1), linked under the key, with a `NULL` path. -/
theorem C12_counterexample :
    hashtbl_find exampleFileState.tbl { pid := 6, device := 8, inode := 42 } = none ∧
    (ec_file_process_status_open 6 8 42 (some "/bin/x".toList) true true false id
      exampleFileState).1 = some 1 ∧
    hashtbl_find (ec_file_process_status_open 6 8 42 (some "/bin/x".toList) true true false id
      exampleFileState).2.tbl { pid := 6, device := 8, inode := 42 } = some 1 ∧
    ((ec_file_process_status_open 6 8 42 (some "/bin/x".toList) true true false id
      exampleFileState).2.tbl.heap 1).path = none := by
  decide

/-- C12, amended: for a key that is not in the table, when the allocation of
the entry fails `ec_file_process_status_open` returns `NULL` and leaves the
table and the memory cache unchanged; when only the duplication of the path
fails, the entry is still inserted and returned, with a `NULL` path, as for a
call that is given no path. -/
theorem C12_allocation_failures (pid device inode : Nat) (path : Option CString)
    (isSpecialFile dupOk : Bool) (fs : FileState) (hinv : tableInv fs.tbl)
    (habsent : hashtbl_find fs.tbl { pid := pid, device := device, inode := inode } = none)
    (o1 o2 : Ptr × FileState)
    (h1 : o1 = ec_file_process_status_open pid device inode path isSpecialFile false dupOk id fs)
    (h2 : o2 = ec_file_process_status_open pid device inode path isSpecialFile true false id fs) :
    (o1.1 = none ∧ o1.2 = fs) ∧
    (o2.1 = some fs.tbl.next ∧
      hashtbl_find o2.2.tbl { pid := pid, device := device, inode := inode } =
        some fs.tbl.next ∧
      (o2.2.tbl.heap fs.tbl.next).path = none ∧
      o2.2.mem = fs.mem) := by
  have hfresh : fs.tbl.next ∉ fs.tbl.nodes := fun hmem => Nat.lt_irrefl _ (hinv.2 _ hmem)
  rw [open_alloc_failed pid device inode path isSpecialFile dupOk fs habsent] at h1
  rw [open_absent pid device inode path isSpecialFile false fs hfresh habsent] at h2
  subst h1
  subst h2
  refine ⟨⟨rfl, rfl⟩, rfl, hashtbl_find_head _ _ _ _ rfl (by simp), ?_, ?_⟩ <;>
    cases path <;> simp [ec_mem_cache_strdup]

/-- Witness of the amended C12: the entry allocation fails for pid 6. -/
theorem C12_allocation_failures_witness :
    tableInv exampleFileState.tbl ∧
    hashtbl_find exampleFileState.tbl { pid := 6, device := 8, inode := 42 } = none ∧
    (ec_file_process_status_open 6 8 42 (some "/bin/x".toList) true false true id
      exampleFileState).1 = none ∧
    (ec_file_process_status_open 6 8 42 (some "/bin/x".toList) true false true id
      exampleFileState).2 = exampleFileState :=
  ⟨by decide, by decide,
    (C12_allocation_failures 6 8 42 (some "/bin/x".toList) true true exampleFileState
      (by decide) (by decide) _ _ rfl rfl).1⟩

/-! ## Lemmas on strings and on the release of an identity -/

/-- Writing an address twice keeps the second value. -/
theorem heapSet_heapSet {α : Type} (h : Nat → α) (a : Nat) (v w : α) :
    heapSet (heapSet h a v) a w = heapSet h a w := by
  funext b
  simp only [heapSet_apply]
  split <;> rfl

/-- A put on the memory cache lowers exactly one count by one. -/
theorem mem_put_refcnt (q : Ptr) (m : MemCache) (b : Nat) :
    ((ec_mem_cache_put_generic q m).objs b).refcnt =
      (m.objs b).refcnt - (if q = some b then 1 else 0) := by
  cases q with
  | none => simp [ec_mem_cache_put_generic]
  | some a =>
    simp only [ec_mem_cache_put_generic, heapSet_apply, Option.some.injEq]
    by_cases h : b = a
    · subst h; simp
    · simp [h, Ne.symm h]

/-- A get on the memory cache raises exactly one count by one. -/
theorem mem_get_refcnt (q : Ptr) (m : MemCache) (b : Nat) :
    ((ec_mem_cache_get_generic q m).2.objs b).refcnt =
      (m.objs b).refcnt + (if q = some b then 1 else 0) := by
  cases q with
  | none => simp [ec_mem_cache_get_generic]
  | some a =>
    simp only [ec_mem_cache_get_generic, heapSet_apply, Option.some.injEq]
    by_cases h : b = a
    · subst h; simp
    · simp [h, Ne.symm h]

/-- A get on the memory cache returns its argument. -/
@[simp]
theorem mem_get_fst (q : Ptr) (m : MemCache) : (ec_mem_cache_get_generic q m).1 = q := by
  cases q <;> rfl

/-- Setting the path writes the path field and nothing else of the identity. -/
theorem set_path_fields (x : Nat) (p : Ptr) (s : State) :
    (ec_process_tracking_set_path (some x) p s).execs x = { s.execs x with path := p } := by
  cases p <;> simp [ec_process_tracking_set_path, ec_process_tracking_put_path,
    ec_mem_cache_get_generic]

/-- String counts after setting the path. -/
theorem set_path_refcnt (x : Nat) (p : Ptr) (s : State) (q : Nat) :
    ((ec_process_tracking_set_path (some x) p s).mem.objs q).refcnt =
      (s.mem.objs q).refcnt - (if (s.execs x).path = some q then 1 else 0)
        + (if p = some q then 1 else 0) := by
  cases p with
  | none => simp [ec_process_tracking_set_path, ec_process_tracking_put_path, mem_put_refcnt]
  | some a =>
    simp [ec_process_tracking_set_path, ec_process_tracking_put_path, mem_put_refcnt,
      mem_get_refcnt]

/-- Setting the cmdline writes the cmdline field and nothing else of the identity. -/
theorem set_cmdline_fields (x : Nat) (p : Ptr) (s : State) :
    (ec_process_tracking_set_cmdline (some x) p s).execs x =
      { s.execs x with cmdline := p } := by
  cases p <;> simp [ec_process_tracking_set_cmdline, ec_process_tracking_put_cmdline,
    ec_mem_cache_get_generic]

/-- String counts after setting the cmdline. -/
theorem set_cmdline_refcnt (x : Nat) (p : Ptr) (s : State) (q : Nat) :
    ((ec_process_tracking_set_cmdline (some x) p s).mem.objs q).refcnt =
      (s.mem.objs q).refcnt - (if (s.execs x).cmdline = some q then 1 else 0)
        + (if p = some q then 1 else 0) := by
  cases p with
  | none =>
    simp [ec_process_tracking_set_cmdline, ec_process_tracking_put_cmdline, mem_put_refcnt]
  | some a =>
    simp [ec_process_tracking_set_cmdline, ec_process_tracking_put_cmdline, mem_put_refcnt,
      mem_get_refcnt]

/-- Getting the cmdline returns the cmdline of the identity. -/
@[simp]
theorem get_cmdline_fst (x : Nat) (s : State) :
    (ec_process_tracking_get_cmdline (some x) s).1 = (s.execs x).cmdline := by
  simp [ec_process_tracking_get_cmdline]

/-- Releasing a path leaves the identities alone. -/
@[simp]
theorem put_path_execs (q : Ptr) (s : State) :
    (ec_process_tracking_put_path q s).execs = s.execs := rfl

/-- Releasing a cmdline leaves the identities alone. -/
@[simp]
theorem put_cmdline_execs (q : Ptr) (s : State) :
    (ec_process_tracking_put_cmdline q s).execs = s.execs := rfl

/-- Getting the cmdline leaves the identities alone. -/
@[simp]
theorem get_cmdline_execs (q : Ptr) (s : State) :
    (ec_process_tracking_get_cmdline q s).2.execs = s.execs := by
  cases q <;> rfl

/-- String counts after getting the path. -/
theorem get_path_refcnt (x : Nat) (s : State) (b : Nat) :
    ((ec_process_tracking_get_path (some x) s).2.mem.objs b).refcnt =
      (s.mem.objs b).refcnt + (if (s.execs x).path = some b then 1 else 0) := by
  simp [ec_process_tracking_get_path, mem_get_refcnt]

/-- String counts after getting the cmdline. -/
theorem get_cmdline_refcnt (x : Nat) (s : State) (b : Nat) :
    ((ec_process_tracking_get_cmdline (some x) s).2.mem.objs b).refcnt =
      (s.mem.objs b).refcnt + (if (s.execs x).cmdline = some b then 1 else 0) := by
  simp [ec_process_tracking_get_cmdline, mem_get_refcnt]

/-- A release that is not the last one only lowers the count. -/
theorem put_exec_identity_alive (x : Nat) (s : State)
    (h : (s.execs x).reference_count ≠ 1) :
    ec_process_tracking_put_exec_identity (some x) s =
      { s with execs := (heapSet s.execs x
          { s.execs x with reference_count := (s.execs x).reference_count - 1 }) } := by
  have : ¬ (s.execs x).reference_count - 1 = 0 := by omega
  simp [ec_process_tracking_put_exec_identity, this]

/-- A release that is not the last one leaves the strings alone. -/
theorem put_exec_identity_alive_opt (q : Ptr) (s : State)
    (h : ∀ a, q = some a → (s.execs a).reference_count ≠ 1) :
    (ec_process_tracking_put_exec_identity q s).mem = s.mem ∧
    ∀ b, (ec_process_tracking_put_exec_identity q s).execs b =
      if q = some b then
        { s.execs b with reference_count := (s.execs b).reference_count - 1 }
      else s.execs b := by
  cases q with
  | none => simp [ec_process_tracking_put_exec_identity]
  | some x =>
    rw [put_exec_identity_alive x s (h x rfl)]
    refine ⟨rfl, ?_⟩
    intro b
    simp only [heapSet_apply, Option.some.injEq]
    by_cases hb : b = x
    · subst hb; simp
    · simp [hb, Ne.symm hb]

/-- String counts after the deletion of an identity. -/
theorem exec_identity_delete_refcnt (x : Nat) (s : State) (b : Nat) :
    ((exec_identity_delete x s).mem.objs b).refcnt =
      (s.mem.objs b).refcnt - (if (s.execs x).path = some b then 1 else 0)
        - (if (s.execs x).cmdline = some b then 1 else 0) := by
  simp [exec_identity_delete, set_cmdline_refcnt, set_path_refcnt, set_path_fields]

/-- The string references a release of an identity gives up: none, unless the
release is the last one, when the identity is deleted and gives up its path
and its cmdline. -/
theorem put_exec_identity_refcnt (x : Nat) (s : State) (b : Nat) :
    ((ec_process_tracking_put_exec_identity (some x) s).mem.objs b).refcnt =
      (s.mem.objs b).refcnt -
        (if (s.execs x).reference_count - 1 = 0 then
          (if (s.execs x).path = some b then 1 else 0) +
            (if (s.execs x).cmdline = some b then 1 else 0)
        else 0) := by
  simp only [ec_process_tracking_put_exec_identity]
  split
  · rw [exec_identity_delete_refcnt]
    simp
    omega
  · simp

/-- Releasing an identity treats the ExecIdentity heap the same way whatever
the memory cache holds. -/
theorem put_exec_identity_execs_mem (q : Ptr) (s : State) (m : MemCache) :
    (ec_process_tracking_put_exec_identity q { s with mem := m }).execs =
      (ec_process_tracking_put_exec_identity q s).execs := by
  cases q with
  | none => rfl
  | some x =>
    simp only [ec_process_tracking_put_exec_identity]
    split <;> rfl

/-- Releasing a path and a cmdline only touches the memory cache. -/
theorem put_path_cmdline_eq (p c : Ptr) (s : State) :
    ec_process_tracking_put_cmdline c (ec_process_tracking_put_path p s) =
      { s with mem := (ec_mem_cache_put_generic c (ec_mem_cache_put_generic p s.mem)) } := rfl

/-! ## Process handles: claims C13 to C16 -/

/-- Identity counts after releasing the snapshot of a handle. -/
theorem put_exec_handle_rc (h : ExecHandle) (s : State) (b : Nat) :
    ((ec_process_tracking_put_exec_handle (some h) s).execs b).reference_count =
      (s.execs b).reference_count - (if h.identity = some b then 1 else 0) := by
  simp [ec_process_tracking_put_exec_handle, put_exec_identity_rc]

/-- Identity counts after setting the snapshot of a handle. -/
theorem exec_handle_set_rc (h : ExecHandle) (q : Ptr) (s : State) (b : Nat) :
    ((ec_exec_handle_set_exec_identity (some h) q s).2.execs b).reference_count =
      (s.execs b).reference_count - (if h.identity = some b then 1 else 0)
        + (if q = some b then 1 else 0) := by
  simp [ec_exec_handle_set_exec_identity, put_exec_identity_rc, get_exec_identity_ref_rc]

/-- The identity a snapshot holds after it is set. -/
theorem exec_handle_set_identity (h : ExecHandle) (q : Ptr) (s : State) :
    ((ec_exec_handle_set_exec_identity (some h) q s).1.getD
      { identity := none, path := none, cmdline := none }).identity = q := by
  simp [ec_exec_handle_set_exec_identity]

/-- A release of a PosixIdentity that is not the last one only lowers its count. -/
theorem process_table_put_alive (p : PosixIdentity) (s : State) (hp : p.reference_count ≠ 1) :
    process_table_put (some p) s =
      (some { p with reference_count := p.reference_count - 1 }, s) := by
  have : ¬ p.reference_count - 1 = 0 := by omega
  simp [process_table_put, this]

/-- A handle that is returned is complete and refers to the PosixIdentity given. -/
theorem handle_alloc_complete (p : Option PosixIdentity) (allocOk : Bool) (s : State)
    (h : ProcessHandle) (hh : (ec_process_handle_alloc p allocOk s).handle = some h) :
    h.exec_handle.identity ≠ none ∧ h.exec_handle.path ≠ none ∧
    h.exec_handle.cmdline ≠ none ∧ h.posix_identity = p := by
  unfold ec_process_handle_alloc at hh
  cases allocOk with
  | false => simp at hh
  | true =>
    simp only [if_true] at hh
    split at hh
    · rename_i hc
      simp only [Option.some.injEq] at hh
      subst hh
      simp only [Bool.and_eq_true, Option.isSome_iff_ne_none] at hc
      exact ⟨hc.1.1, hc.1.2, hc.2, rfl⟩
    · simp at hh

/-- Reference counts after `ec_process_handle_alloc`, when the PosixIdentity
stays alive: the identity of the PosixIdentity gains two references when a
handle is returned and one when it is not. -/
theorem handle_alloc_rc (p : PosixIdentity) (s : State) (hp : p.reference_count ≠ 1)
    (b : Nat) :
    ((ec_process_handle_alloc (some p) true s).state.execs b).reference_count =
      (s.execs b).reference_count +
        (if p.exec_identity = some b then
          (if (ec_process_handle_alloc (some p) true s).handle = none then 1 else 2)
        else 0) := by
  unfold ec_process_handle_alloc
  simp only [if_true]
  split
  · simp [exec_handle_set_rc, ec_process_tracking_get_exec_identity, get_exec_identity_ref_rc]
    split <;> omega
  · simp [exec_handle_set_rc, ec_process_tracking_get_exec_identity, get_exec_identity_ref_rc,
      ec_process_tracking_put_handle, process_table_put_alive _ _ hp, put_exec_handle_rc,
      exec_handle_set_identity]

/-- C13, the code where a snapshot field is missing: pid 5 is tracked with
the image at address 1, which has a path but no cmdline, and is referenced
once. `ec_process_handle_alloc` returns `NULL`; the path string (cache address
7) has its count of before and the PosixIdentity has lost the reference of
the caller, but the ExecIdentity is now referenced twice: the reference taken
by `ec_process_tracking_get_exec_identity` is never released. -/
theorem C13_failed_alloc_keeps_an_identity_reference :
    ((exampleState 1).execs 1).cmdline = none ∧
    (ec_process_handle_alloc (some exampleTrackedPosix) true (exampleState 1)).handle = none ∧
    ((exampleState 1).execs 1).reference_count = 1 ∧
    ((ec_process_handle_alloc (some exampleTrackedPosix) true (exampleState 1)).state.execs
      1).reference_count = 2 ∧
    ((ec_process_handle_alloc (some exampleTrackedPosix) true (exampleState 1)).state.mem.objs
      7).refcnt = ((exampleState 1).mem.objs 7).refcnt ∧
    (ec_process_handle_alloc (some exampleTrackedPosix) true
      (exampleState 1)).posix_identity =
      some { exampleTrackedPosix with reference_count := 1 } := by
  decide

/-- C14, the code where the handle structure cannot be allocated: for every
PosixIdentity `ec_process_handle_alloc` returns `NULL` and changes nothing; in
particular the reference count of the PosixIdentity is the one of before, so
the reference of the caller has not been released. -/
theorem C14_failed_handle_allocation_keeps_posix_reference (p : PosixIdentity) (s : State) :
    (ec_process_handle_alloc (some p) false s).handle = none ∧
    (ec_process_handle_alloc (some p) false s).posix_identity = some p ∧
    (ec_process_handle_alloc (some p) false s).state = s := by
  simp [ec_process_handle_alloc]

/-- C15, the code on a successful alloc followed by a put: pid 5 is tracked
with the image at address 1 (path and cmdline at cache addresses 7 and 6),
referenced once. After `ec_process_handle_alloc` and
`ec_process_tracking_put_handle` the path and cmdline counts are those of
before and the PosixIdentity count is one lower, but the ExecIdentity is
referenced twice, one more than before the alloc. A put of a `NULL` handle
changes nothing. -/
theorem C15_alloc_then_put_keeps_an_identity_reference :
    (ec_process_handle_alloc (some exampleTrackedPosix) true exampleStateCmd).handle ≠ none ∧
    (exampleStateCmd.execs 1).reference_count = 1 ∧
    ((ec_process_tracking_put_handle
      (ec_process_handle_alloc (some exampleTrackedPosix) true exampleStateCmd).handle
      (ec_process_handle_alloc (some exampleTrackedPosix) true exampleStateCmd).state).2.execs
        1).reference_count = 2 ∧
    ((ec_process_tracking_put_handle
      (ec_process_handle_alloc (some exampleTrackedPosix) true exampleStateCmd).handle
      (ec_process_handle_alloc (some exampleTrackedPosix) true exampleStateCmd).state).2.mem.objs
        7).refcnt = (exampleStateCmd.mem.objs 7).refcnt ∧
    ((ec_process_tracking_put_handle
      (ec_process_handle_alloc (some exampleTrackedPosix) true exampleStateCmd).handle
      (ec_process_handle_alloc (some exampleTrackedPosix) true exampleStateCmd).state).2.mem.objs
        6).refcnt = (exampleStateCmd.mem.objs 6).refcnt ∧
    (ec_process_tracking_put_handle
      (ec_process_handle_alloc (some exampleTrackedPosix) true exampleStateCmd).handle
      (ec_process_handle_alloc (some exampleTrackedPosix) true exampleStateCmd).state).1 =
      some { exampleTrackedPosix with reference_count := 1 } ∧
    (ec_process_tracking_put_handle none exampleStateCmd).1 = none ∧
    ((ec_process_tracking_put_handle none exampleStateCmd).2.execs 1).reference_count =
      (exampleStateCmd.execs 1).reference_count := by
  decide

/-- C16: after `ec_exec_handle_set_exec_identity` on a non-null handle and a
non-null ExecIdentity E the handle is a snapshot of E: its identity is E, its
path is the path of E and its cmdline is the cmdline of E. E gains exactly one
reference and the identity the handle held loses exactly one. The path and
the cmdline of E gain exactly one reference each and the path and cmdline the
handle held lose exactly one each, on top of what the release of the old
identity does to the strings (nothing, unless that release was its last one and
deleted it). When the old identity is not deleted, the path and cmdline of E
are those of before the call. -/
theorem C16_exec_handle_snapshot (h : ExecHandle) (e : Nat) (s : State) :
    (ec_exec_handle_set_exec_identity (some h) (some e) s).1 =
      some { identity := some e,
             path := ((ec_exec_handle_set_exec_identity (some h) (some e) s).2.execs e).path,
             cmdline :=
               ((ec_exec_handle_set_exec_identity (some h) (some e) s).2.execs e).cmdline } ∧
    (∀ b, ((ec_exec_handle_set_exec_identity (some h) (some e) s).2.execs b).reference_count =
      (s.execs b).reference_count - (if h.identity = some b then 1 else 0)
        + (if e = b then 1 else 0)) ∧
    (∀ q, ((ec_exec_handle_set_exec_identity (some h) (some e) s).2.mem.objs q).refcnt =
      ((ec_process_tracking_put_exec_identity h.identity s).mem.objs q).refcnt
        - (if h.path = some q then 1 else 0) - (if h.cmdline = some q then 1 else 0)
        + (if ((ec_exec_handle_set_exec_identity (some h) (some e) s).2.execs e).path = some q
            then 1 else 0)
        + (if ((ec_exec_handle_set_exec_identity (some h) (some e) s).2.execs e).cmdline = some q
            then 1 else 0)) ∧
    ((∀ a, h.identity = some a → (s.execs a).reference_count ≠ 1) →
      (ec_process_tracking_put_exec_identity h.identity s).mem = s.mem ∧
      ((ec_exec_handle_set_exec_identity (some h) (some e) s).2.execs e).path =
        (s.execs e).path ∧
      ((ec_exec_handle_set_exec_identity (some h) (some e) s).2.execs e).cmdline =
        (s.execs e).cmdline) := by
  refine ⟨?_, ?_, ?_, ?_⟩
  · simp [ec_exec_handle_set_exec_identity]
  · intro b
    rw [exec_handle_set_rc]
    simp
  · intro q
    have hs2 := put_path_cmdline_eq h.path h.cmdline s
    cases hi : h.identity with
    | none =>
      simp [ec_exec_handle_set_exec_identity, hi, get_cmdline_refcnt, get_path_refcnt,
        ec_process_tracking_put_exec_identity, hs2, mem_put_refcnt,
        get_exec_identity_ref_execs]
    | some x =>
      simp only [ec_exec_handle_set_exec_identity, hi, get_cmdline_refcnt, get_path_refcnt,
        get_path_execs, get_cmdline_execs, get_exec_identity_ref_mem, hs2,
        put_exec_identity_refcnt, mem_put_refcnt]
      omega
  · intro hk
    obtain ⟨hm, he⟩ := put_exec_identity_alive_opt h.identity s hk
    refine ⟨hm, ?_, ?_⟩ <;>
      simp only [ec_exec_handle_set_exec_identity, get_path_execs, get_cmdline_execs,
        get_exec_identity_ref_execs, if_true] <;>
      · rw [put_path_cmdline_eq, put_exec_identity_execs_mem, he e]
        split <;> rfl

/-- Instance of C16: a handle that holds the image at address 1 and its path
is set to the image at address 2; the image at address 1 stays referenced. -/
theorem C16_exec_handle_snapshot_witness :
    ((ec_exec_handle_set_exec_identity
      (some { identity := some 1, path := some 7, cmdline := none }) (some 2)
      (exampleState 2)).2.execs 2).path = ((exampleState 2).execs 2).path :=
  ((C16_exec_handle_snapshot { identity := some 1, path := some 7, cmdline := none } 2
    (exampleState 2)).2.2.2 (fun a ha => by cases ha; decide)).2.1

/-! ## ExecIdentity lifecycle: claims C17 to C20 -/

/-- The PosixIdentity after its ExecIdentity is set. -/
theorem set_exec_identity_fst (p : PosixIdentity) (q : Ptr) (s : State) :
    (ec_process_posix_identity_set_exec_identity (some p) q s).1 =
      some { p with exec_identity := q } := by
  simp [ec_process_posix_identity_set_exec_identity]

/-- Identity counts after the ExecIdentity of a PosixIdentity is set. -/
theorem set_exec_identity_rc (p : PosixIdentity) (q : Ptr) (s : State) (b : Nat) :
    ((ec_process_posix_identity_set_exec_identity (some p) q s).2.execs b).reference_count =
      (s.execs b).reference_count - (if p.exec_identity = some b then 1 else 0)
        + (if q = some b then 1 else 0) := by
  simp [ec_process_posix_identity_set_exec_identity, get_exec_identity_ref_rc,
    put_exec_identity_rc]

/-- C17: `ec_process_tracking_get_exec_identity_ref` returns its argument. For
a non-null ExecIdentity its reference_count is raised by exactly one and no
other field of it (active_process_count included), no other identity, no
string and no event changes; for `NULL` it returns `NULL` and changes no
state. -/
theorem C17_get_exec_identity_ref_adds_one_reference (q : Ptr) (s : State) :
    (ec_process_tracking_get_exec_identity_ref q s).1 = q ∧
    (∀ b, (ec_process_tracking_get_exec_identity_ref q s).2.execs b =
      if q = some b then
        { s.execs b with reference_count := (s.execs b).reference_count + 1 }
      else s.execs b) ∧
    (ec_process_tracking_get_exec_identity_ref q s).2.mem = s.mem ∧
    (ec_process_tracking_get_exec_identity_ref q s).2.sent_events = s.sent_events ∧
    (ec_process_tracking_get_exec_identity_ref q s).2.freed_events = s.freed_events ∧
    ec_process_tracking_get_exec_identity_ref none s = (none, s) := by
  refine ⟨get_exec_identity_ref_fst q s, get_exec_identity_ref_execs q s,
    get_exec_identity_ref_mem q s, ?_, ?_, rfl⟩ <;> cases q <;> rfl

/-- C18: for a non-null PosixIdentity that holds ExecIdentity A, and a
different ExecIdentity B, `ec_process_posix_identity_set_exec_identity` leaves
the PosixIdentity with exec_identity B and every other field, the temporary
slot included, unchanged; the reference count of A is one lower, that of B one
higher, and no other count changes. With a `NULL` PosixIdentity nothing
changes. -/
theorem C18_set_exec_identity_moves_reference (p : PosixIdentity) (a b : Nat)
    (ha : p.exec_identity = some a) (hab : a ≠ b) (s : State) :
    (ec_process_posix_identity_set_exec_identity (some p) (some b) s).1 =
      some { p with exec_identity := some b } ∧
    ((ec_process_posix_identity_set_exec_identity (some p) (some b) s).2.execs
      a).reference_count = (s.execs a).reference_count - 1 ∧
    ((ec_process_posix_identity_set_exec_identity (some p) (some b) s).2.execs
      b).reference_count = (s.execs b).reference_count + 1 ∧
    (∀ c, c ≠ a → c ≠ b →
      ((ec_process_posix_identity_set_exec_identity (some p) (some b) s).2.execs
        c).reference_count = (s.execs c).reference_count) ∧
    ec_process_posix_identity_set_exec_identity none (some b) s = (none, s) := by
  refine ⟨set_exec_identity_fst p (some b) s, ?_, ?_, ?_, rfl⟩
  · rw [set_exec_identity_rc]; simp [ha, Ne.symm hab]
  · rw [set_exec_identity_rc]; simp [ha, hab]
  · intro c hca hcb
    rw [set_exec_identity_rc]; simp [ha, Ne.symm hca, Ne.symm hcb]

/-- Witness of C18: pid 5 moves from the image at address 1 to the one at
address 2. -/
theorem C18_set_exec_identity_moves_reference_witness :
    (examplePosix (some 1) none).exec_identity = some 1 ∧ (1 : Nat) ≠ 2 ∧
    ((ec_process_posix_identity_set_exec_identity (some (examplePosix (some 1) none)) (some 2)
      (exampleState 1)).2.execs 1).reference_count =
      ((exampleState 1).execs 1).reference_count - 1 :=
  ⟨rfl, by decide,
    (C18_set_exec_identity_moves_reference (examplePosix (some 1) none) 1 2 rfl (by decide)
      (exampleState 1)).2.1⟩

/-- C19: for every non-null ExecIdentity E, `ec_process_tracking_set_path`
with a path p (or `NULL`) releases exactly one reference on the previous path
of E, takes exactly one on p, and makes p the path of E, leaving every other
field of E, its cmdline included, as it was; a following
`ec_process_tracking_get_path` returns p. `ec_process_tracking_set_cmdline` and
`ec_process_tracking_get_cmdline` do the same for the cmdline and leave the
path as it was. -/
theorem C19_set_path_and_cmdline (x : Nat) (p : Ptr) (s : State) :
    (ec_process_tracking_set_path (some x) p s).execs x = { s.execs x with path := p } ∧
    (ec_process_tracking_get_path (some x) (ec_process_tracking_set_path (some x) p s)).1 = p ∧
    (∀ q, ((ec_process_tracking_set_path (some x) p s).mem.objs q).refcnt =
      (s.mem.objs q).refcnt - (if (s.execs x).path = some q then 1 else 0)
        + (if p = some q then 1 else 0)) ∧
    (ec_process_tracking_set_cmdline (some x) p s).execs x = { s.execs x with cmdline := p } ∧
    (ec_process_tracking_get_cmdline (some x)
      (ec_process_tracking_set_cmdline (some x) p s)).1 = p ∧
    (∀ q, ((ec_process_tracking_set_cmdline (some x) p s).mem.objs q).refcnt =
      (s.mem.objs q).refcnt - (if (s.execs x).cmdline = some q then 1 else 0)
        + (if p = some q then 1 else 0)) := by
  refine ⟨set_path_fields x p s, ?_, set_path_refcnt x p s, set_cmdline_fields x p s, ?_,
    set_cmdline_refcnt x p s⟩
  · rw [get_path_fst, set_path_fields]
  · rw [get_cmdline_fst, set_cmdline_fields]

/-- C20: for a PosixIdentity with ExecIdentity E (which the PosixIdentity
references, so the count of E is positive),
`ec_process_tracking_store_exit_event` sets the exit_event slot of E to the
given event, frees exactly the event that was stored before, and changes
nothing else: the reference count of E is the one of before. With a `NULL`
PosixIdentity, or one without ExecIdentity, the state is unchanged. -/
theorem C20_store_exit_event (p : PosixIdentity) (x : Nat) (hx : p.exec_identity = some x)
    (event : Ptr) (s : State) (hrc : 0 < (s.execs x).reference_count) :
    ec_process_tracking_store_exit_event (some p) event s =
      { s with
        execs := (heapSet s.execs x { s.execs x with exit_event := event }),
        freed_events := s.freed_events ++ (s.execs x).exit_event.toList } ∧
    ec_process_tracking_store_exit_event none event s = s ∧
    (∀ p0 : PosixIdentity, p0.exec_identity = none →
      ec_process_tracking_store_exit_event (some p0) event s = s) := by
  refine ⟨?_, rfl, ?_⟩
  · simp only [ec_process_tracking_store_exit_event, ec_process_tracking_get_exec_identity, hx,
      ec_process_tracking_get_exec_identity_ref]
    rw [put_exec_identity_alive]
    · cases he : (s.execs x).exit_event <;>
        simp [ec_free_event, heapSet_heapSet, he]
    · cases he : (s.execs x).exit_event <;> simp [ec_free_event, he] <;> omega
  · intro p0 h0
    simp [ec_process_tracking_store_exit_event, ec_process_tracking_get_exec_identity, h0,
      ec_process_tracking_get_exec_identity_ref]

/-- Witness of C20: the exit event 9 is stored for pid 5. -/
theorem C20_store_exit_event_witness :
    (examplePosix (some 1) none).exec_identity = some 1 ∧
    0 < ((exampleState 1).execs 1).reference_count ∧
    ec_process_tracking_store_exit_event (some (examplePosix (some 1) none)) (some 9)
        (exampleState 1) =
      { exampleState 1 with
        execs := (heapSet (exampleState 1).execs 1
          { (exampleState 1).execs 1 with exit_event := some 9 }),
        freed_events := (exampleState 1).freed_events ++
          ((exampleState 1).execs 1).exit_event.toList } :=
  ⟨rfl, by decide,
    (C20_store_exit_event (examplePosix (some 1) none) 1 rfl (some 9) (exampleState 1)
      (by decide)).1⟩

/-! ## The file tree cache: claim C21 -/

/-- What one call of the iteration callback does to an entry. -/
theorem for_each_file_tree_step {σ : Type} (trees : Nat → FILE_TREE) (p : PosixIdentity)
    (lp : for_each_priv σ) (st : State × σ) :
    (__ec_hashtbl_for_each_file_tree trees (some p) (some lp) st).1 = .ACTION_CONTINUE ∧
    (__ec_hashtbl_for_each_file_tree trees (some p) (some lp) st).2.2 =
      (match p.exec_identity with
        | some x => lp.callback (trees x) lp.priv st.2
        | none => st.2) ∧
    ∀ b, ((__ec_hashtbl_for_each_file_tree trees (some p) (some lp) st).2.1.execs
      b).reference_count = (st.1.execs b).reference_count := by
  refine ⟨rfl, ?_, ?_⟩
  · simp [__ec_hashtbl_for_each_file_tree, ec_process_tracking_get_shared_data,
      ec_process_tracking_get_exec_identity]
  · intro b
    simp only [__ec_hashtbl_for_each_file_tree, ec_process_tracking_get_shared_data,
      ec_process_tracking_put_shared_data, ec_process_tracking_get_exec_identity,
      put_exec_identity_rc, get_exec_identity_ref_rc, get_exec_identity_ref_fst]
    omega

/-- The traversal visits every entry that has an ExecIdentity, in table order,
and keeps every reference count. -/
theorem for_each_file_tree_run {σ : Type} (callback : TreeCallback σ) (priv : Nat)
    (trees : Nat → FILE_TREE) (table : List PosixIdentity) :
    ∀ (st : State × σ),
      (ec_process_tracking_for_each_file_tree callback priv table trees st).2 =
        table.foldl (fun acc p =>
          match p.exec_identity with
          | some x => callback (trees x) priv acc
          | none => acc) st.2 ∧
      ∀ b, ((ec_process_tracking_for_each_file_tree callback priv table trees st).1.execs
        b).reference_count = (st.1.execs b).reference_count := by
  induction table with
  | nil => intro st; exact ⟨rfl, fun _ => rfl⟩
  | cons p rest ih =>
    intro st
    obtain ⟨h1, h2, h3⟩ := for_each_file_tree_step trees p
      { callback := callback, priv := priv } st
    have hstep : ec_process_tracking_for_each_file_tree callback priv (p :: rest) trees st =
        ec_process_tracking_for_each_file_tree callback priv rest trees
          (__ec_hashtbl_for_each_file_tree trees (some p)
            (some { callback := callback, priv := priv }) st).2 := by
      simp only [ec_process_tracking_for_each_file_tree, ec_hashtbl_read_for_each_generic]
      generalize hr : __ec_hashtbl_for_each_file_tree trees (some p)
        (some { callback := callback, priv := priv }) st = r at h1
      obtain ⟨a, r2⟩ := r
      simp only at h1
      subst h1
      rfl
    obtain ⟨ih1, ih2⟩ := ih (__ec_hashtbl_for_each_file_tree trees (some p)
      (some { callback := callback, priv := priv }) st).2
    rw [hstep]
    refine ⟨?_, ?_⟩
    · rw [ih1, h2, List.foldl_cons]
    · intro b
      rw [ih2 b, h3 b]

/-- The recording visitor lists the entries that have an ExecIdentity. -/
theorem recordVisit_foldl (priv : Nat) (trees : Nat → FILE_TREE) (table : List PosixIdentity) :
    ∀ (log : List (FILE_TREE × Nat)),
      table.foldl (fun acc p =>
        match p.exec_identity with
        | some x => recordVisit (trees x) priv acc
        | none => acc) log =
      log ++ table.filterMap (fun p => p.exec_identity.map (fun x => (trees x, priv))) := by
  induction table with
  | nil => intro log; simp
  | cons p rest ih =>
    intro log
    rw [List.foldl_cons, ih]
    cases hp : p.exec_identity <;> simp [recordVisit, hp, List.filterMap_cons]

/-- C21, as stated, fails: the registry holds pid 5, whose ExecIdentity has a
`NULL` tracked-file tree (respectively an empty one). The visitor is invoked
all the same, with that tree. -/
theorem C21_counterexample :
    (ec_process_tracking_for_each_file_tree recordVisit 7 [examplePosix (some 1) none]
      (fun _ => none) (exampleState 1, [])).2 = [(none, 7)] ∧
    (ec_process_tracking_for_each_file_tree recordVisit 7 [examplePosix (some 1) none]
      (fun _ => some []) (exampleState 1, [])).2 = [(some [], 7)] := by
  decide

/-- C21, amended: `ec_process_tracking_for_each_file_tree` invokes the visitor
exactly once, in table order, for each registry entry that has an
ExecIdentity, passing the tracked-file tree of that identity (empty or `NULL`
trees included) and the priv of the caller, and does not invoke it for entries
without an ExecIdentity; entries that share an ExecIdentity each cause an
invocation with the same tree, and the traversal leaves every reference count
as it was. -/
theorem C21_for_each_visits_every_identity {σ : Type} (callback : TreeCallback σ)
    (priv : Nat) (table : List PosixIdentity) (trees : Nat → FILE_TREE) (st : State × σ)
    (s : State) :
    (ec_process_tracking_for_each_file_tree callback priv table trees st).2 =
      table.foldl (fun acc p =>
        match p.exec_identity with
        | some x => callback (trees x) priv acc
        | none => acc) st.2 ∧
    (ec_process_tracking_for_each_file_tree recordVisit priv table trees (s, [])).2 =
      table.filterMap (fun p => p.exec_identity.map (fun x => (trees x, priv))) ∧
    ∀ b, ((ec_process_tracking_for_each_file_tree callback priv table trees st).1.execs
      b).reference_count = (st.1.execs b).reference_count := by
  refine ⟨(for_each_file_tree_run callback priv trees table st).1, ?_,
    (for_each_file_tree_run callback priv trees table st).2⟩
  rw [(for_each_file_tree_run recordVisit priv trees table (s, [])).1, recordVisit_foldl]
  simp

/-! ## Operation counters: claims C22 and C25 -/

/-- With all counters zero the counter relations hold. -/
theorem countersInv_of_zero (p : PosixIdentity) (h : countersZero p) : countersInv p := by
  obtain ⟨h1, h2, h3, h4, h5, h6, h7, h8, h9, h10, h11, h12, h13, h14⟩ := h
  simp [countersInv, h1, h2, h3, h4, h5, h6, h7, h8, h9, h10, h11, h12, h13, h14]

/-- One call keeps the counter relations, the FILE_WRITE arm included. -/
theorem countersInv_step (p : PosixIdentity) (et : CB_EVENT_TYPE) (action : Int)
    (g : ProcessTrackingData) (h : countersInv p) :
    countersInv (ec_process_tracking_update_op_cnts p et action g).1 := by
  obtain ⟨h1, h2, h3, h4, h5⟩ := h
  by_cases hw : p.file_write = 0 <;>
  cases et <;>
    simp only [ec_process_tracking_update_op_cnts, op_cnts_file_close, countersInv, hw,
      if_true, if_false] <;>
    first
    | exact ⟨h1, h2, h3, h4, h5⟩
    | (refine ⟨?_, ?_, ?_, ?_, ?_⟩ <;> omega)

/-- Every run of calls keeps the counter relations. -/
theorem countersInv_run (ops : List (CB_EVENT_TYPE × Int)) :
    ∀ (p : PosixIdentity) (g : ProcessTrackingData), countersInv p →
      countersInv (update_op_cnts_run ops p g).1 := by
  induction ops with
  | nil => intro p g h; exact h
  | cons op ops ih =>
    intro p g h
    have := ih (ec_process_tracking_update_op_cnts p op.1 op.2 g).1
      (ec_process_tracking_update_op_cnts p op.1 op.2 g).2 (countersInv_step p op.1 op.2 g h)
    simpa [update_op_cnts_run, List.foldl_cons] using this

/-- C22: for every event type other than FILE_WRITE,
`ec_process_tracking_update_op_cnts` raises the category total and the one
counter of the event by one and leaves every other field of the PosixIdentity
as it was: PROCESS_START, PROCESS_EXIT and PROCESS_LAST_EXIT count in
process_op_cnt, MODULE_LOAD, FILE_CREATE, FILE_DELETE and FILE_CLOSE in
file_op_cnt, NET_CONNECT_PRE, NET_CONNECT_POST, NET_ACCEPT and DNS_RESPONSE in
net_op_cnt; any other event type changes nothing. The global counters change
only for PROCESS_START: create_by_fork or create_by_exec rises by one, as the
action selects. -/
theorem C22_two_counters_per_event_type (p : PosixIdentity) (action : Int)
    (g : ProcessTrackingData) :
    (ec_process_tracking_update_op_cnts p .PROCESS_START action g).1 =
      { p with process_op_cnt := p.process_op_cnt + 1,
               process_create := p.process_create + 1 } ∧
    (ec_process_tracking_update_op_cnts p .PROCESS_EXIT action g).1 =
      { p with process_op_cnt := p.process_op_cnt + 1, process_exit := p.process_exit + 1 } ∧
    (ec_process_tracking_update_op_cnts p .PROCESS_LAST_EXIT action g).1 =
      { p with process_op_cnt := p.process_op_cnt + 1, process_exit := p.process_exit + 1 } ∧
    (ec_process_tracking_update_op_cnts p .MODULE_LOAD action g).1 =
      { p with file_op_cnt := p.file_op_cnt + 1, file_map_exec := p.file_map_exec + 1 } ∧
    (ec_process_tracking_update_op_cnts p .FILE_CREATE action g).1 =
      { p with file_op_cnt := p.file_op_cnt + 1, file_create := p.file_create + 1 } ∧
    (ec_process_tracking_update_op_cnts p .FILE_DELETE action g).1 =
      { p with file_op_cnt := p.file_op_cnt + 1, file_delete := p.file_delete + 1 } ∧
    (ec_process_tracking_update_op_cnts p .FILE_CLOSE action g).1 =
      { p with file_op_cnt := p.file_op_cnt + 1, file_close := p.file_close + 1 } ∧
    (ec_process_tracking_update_op_cnts p .NET_CONNECT_PRE action g).1 =
      { p with net_op_cnt := p.net_op_cnt + 1, net_connect := p.net_connect + 1 } ∧
    (ec_process_tracking_update_op_cnts p .NET_CONNECT_POST action g).1 =
      { p with net_op_cnt := p.net_op_cnt + 1, net_connect := p.net_connect + 1 } ∧
    (ec_process_tracking_update_op_cnts p .NET_ACCEPT action g).1 =
      { p with net_op_cnt := p.net_op_cnt + 1, net_accept := p.net_accept + 1 } ∧
    (ec_process_tracking_update_op_cnts p .DNS_RESPONSE action g).1 =
      { p with net_op_cnt := p.net_op_cnt + 1, net_dns := p.net_dns + 1 } ∧
    (ec_process_tracking_update_op_cnts p .PROCESS_START_EXEC action g).1 = p ∧
    (ec_process_tracking_update_op_cnts p .PROCESS_BLOCKED action g).1 = p ∧
    (∀ code, (ec_process_tracking_update_op_cnts p (.OTHER code) action g).1 = p) ∧
    (∀ et, et ≠ .PROCESS_START → (ec_process_tracking_update_op_cnts p et action g).2 = g) ∧
    (ec_process_tracking_update_op_cnts p .PROCESS_START action g).2 =
      (if action = CB_PROCESS_START_BY_FORK then
        { g with create_by_fork := g.create_by_fork + 1 }
      else if action = CB_PROCESS_START_BY_EXEC then
        { g with create_by_exec := g.create_by_exec + 1 }
      else g) := by
  refine ⟨rfl, rfl, rfl, rfl, rfl, rfl, rfl, rfl, rfl, rfl, rfl, rfl, rfl, fun _ => rfl, ?_,
    rfl⟩
  intro et het
  cases et <;> first | rfl | exact absurd rfl het

/-- C25: starting from a PosixIdentity with all counters zero, after any run of
`ec_process_tracking_update_op_cnts` calls process_op_cnt is process_create +
process_exit, net_op_cnt is net_connect + net_accept + net_dns, file_op_cnt is
file_map_exec + file_create + file_delete + file_write + file_close, and
file_open is at most 1 and is 1 exactly when file_write is not zero. -/
theorem C25_totals_are_sums_of_parts (p : PosixIdentity) (hzero : countersZero p)
    (ops : List (CB_EVENT_TYPE × Int))
    (g : ProcessTrackingData) :
    (update_op_cnts_run ops p g).1.process_op_cnt =
      (update_op_cnts_run ops p g).1.process_create +
        (update_op_cnts_run ops p g).1.process_exit ∧
    (update_op_cnts_run ops p g).1.net_op_cnt =
      (update_op_cnts_run ops p g).1.net_connect + (update_op_cnts_run ops p g).1.net_accept +
        (update_op_cnts_run ops p g).1.net_dns ∧
    (update_op_cnts_run ops p g).1.file_op_cnt =
      (update_op_cnts_run ops p g).1.file_map_exec + (update_op_cnts_run ops p g).1.file_create +
        (update_op_cnts_run ops p g).1.file_delete + (update_op_cnts_run ops p g).1.file_write +
        (update_op_cnts_run ops p g).1.file_close ∧
    (update_op_cnts_run ops p g).1.file_open ≤ 1 ∧
    ((update_op_cnts_run ops p g).1.file_open = 1 ↔
      (update_op_cnts_run ops p g).1.file_write ≠ 0) :=
  countersInv_run ops p g (countersInv_of_zero p hzero)

/-- Witness of C25: pid 5 writes twice, closes, starts a process and connects. -/
theorem C25_totals_are_sums_of_parts_witness :
    countersZero (examplePosix (some 1) none) ∧
    (update_op_cnts_run
      [(.FILE_WRITE, 0), (.FILE_WRITE, 0), (.FILE_CLOSE, 0), (.PROCESS_START, 1),
        (.NET_CONNECT_PRE, 0)]
      (examplePosix (some 1) none) { create_by_fork := 0, create_by_exec := 0 }).1.file_op_cnt =
      (update_op_cnts_run
        [(.FILE_WRITE, 0), (.FILE_WRITE, 0), (.FILE_CLOSE, 0), (.PROCESS_START, 1),
          (.NET_CONNECT_PRE, 0)]
        (examplePosix (some 1) none)
        { create_by_fork := 0, create_by_exec := 0 }).1.file_map_exec +
      (update_op_cnts_run
        [(.FILE_WRITE, 0), (.FILE_WRITE, 0), (.FILE_CLOSE, 0), (.PROCESS_START, 1),
          (.NET_CONNECT_PRE, 0)]
        (examplePosix (some 1) none)
        { create_by_fork := 0, create_by_exec := 0 }).1.file_create +
      (update_op_cnts_run
        [(.FILE_WRITE, 0), (.FILE_WRITE, 0), (.FILE_CLOSE, 0), (.PROCESS_START, 1),
          (.NET_CONNECT_PRE, 0)]
        (examplePosix (some 1) none)
        { create_by_fork := 0, create_by_exec := 0 }).1.file_delete +
      (update_op_cnts_run
        [(.FILE_WRITE, 0), (.FILE_WRITE, 0), (.FILE_CLOSE, 0), (.PROCESS_START, 1),
          (.NET_CONNECT_PRE, 0)]
        (examplePosix (some 1) none)
        { create_by_fork := 0, create_by_exec := 0 }).1.file_write +
      (update_op_cnts_run
        [(.FILE_WRITE, 0), (.FILE_WRITE, 0), (.FILE_CLOSE, 0), (.PROCESS_START, 1),
          (.NET_CONNECT_PRE, 0)]
        (examplePosix (some 1) none)
        { create_by_fork := 0, create_by_exec := 0 }).1.file_close :=
  ⟨by decide,
    (C25_totals_are_sums_of_parts (examplePosix (some 1) none) (by decide)
      [(.FILE_WRITE, 0), (.FILE_WRITE, 0), (.FILE_CLOSE, 0), (.PROCESS_START, 1),
        (.NET_CONNECT_PRE, 0)]
      { create_by_fork := 0, create_by_exec := 0 }).2.2.1⟩

/-! ## Query helpers: claim C23 -/

/-- The answer of `ec_process_tracking_has_active_process` for a PosixIdentity with an
ExecIdentity. -/
theorem has_active_process_result (p : PosixIdentity) (x : Nat)
    (hx : p.exec_identity = some x) (s : State) :
    (ec_process_tracking_has_active_process (some p) s).1 =
      decide ((s.execs x).active_process_count ≠ 0) := by
  simp [ec_process_tracking_has_active_process, ec_process_tracking_get_exec_identity, hx,
    get_exec_identity_ref_execs]

/-- The query takes and releases one reference: every count is as before. -/
theorem has_active_process_rc (p : Option PosixIdentity) (s : State) (b : Nat) :
    ((ec_process_tracking_has_active_process p s).2.execs b).reference_count =
      (s.execs b).reference_count := by
  cases p with
  | none => rfl
  | some p =>
    simp only [ec_process_tracking_has_active_process, ec_process_tracking_get_exec_identity,
      put_exec_identity_rc, get_exec_identity_ref_rc, get_exec_identity_ref_fst]
    omega

/-- C23: on a `NULL` input the query helpers return their default and leave the
state alone: `ec_process_tracking_exec_pid` gives 1,
`ec_process_tracking_is_blocked` and `ec_process_tracking_has_active_process`
give false, and `ec_process_tracking_get_path`,
`ec_process_tracking_get_cmdline`, `ec_process_tracking_get_exec_identity` and
`ec_process_tracking_get_temp_exec_identity` give `NULL`. For a non-null
PosixIdentity with an ExecIdentity, `ec_process_tracking_has_active_process`
returns true exactly when active_process_count is not zero, and the reference
count of the ExecIdentity is as before. -/
theorem C23_query_helpers_defaults (p : PosixIdentity) (x : Nat)
    (hx : p.exec_identity = some x) (s : State) :
    ec_process_tracking_exec_pid none s = some 1 ∧
    ec_process_tracking_is_blocked none = some false ∧
    ec_process_tracking_has_active_process none s = (false, s) ∧
    ec_process_tracking_get_path none s = (none, s) ∧
    ec_process_tracking_get_cmdline none s = (none, s) ∧
    ec_process_tracking_get_exec_identity none s = (none, s) ∧
    ec_process_tracking_get_temp_exec_identity none s = (none, s) ∧
    ((ec_process_tracking_has_active_process (some p) s).1 = true ↔
      (s.execs x).active_process_count ≠ 0) ∧
    ((ec_process_tracking_has_active_process (some p) s).2.execs x).reference_count =
      (s.execs x).reference_count := by
  refine ⟨rfl, rfl, rfl, rfl, rfl, rfl, rfl, ?_, has_active_process_rc (some p) s x⟩
  rw [has_active_process_result p x hx s]
  simp

/-- Witness of C23: pid 5, whose image at address 1 has one active process. -/
theorem C23_query_helpers_defaults_witness :
    (examplePosix (some 1) none).exec_identity = some 1 ∧
    ((ec_process_tracking_has_active_process (some (examplePosix (some 1) none))
      (exampleState 1)).1 = true ↔ ((exampleState 1).execs 1).active_process_count ≠ 0) :=
  ⟨rfl, (C23_query_helpers_defaults (examplePosix (some 1) none) 1 rfl
    (exampleState 1)).2.2.2.2.2.2.2.1⟩

/-! ## Re-pointing a handle: claim C24 -/

/-- Identity counts after `ec_process_tracking_set_exec_identity` on a handle. -/
theorem handle_set_exec_identity_rc (h : ProcessHandle) (b : Nat) (s : State) (c : Nat) :
    ((ec_process_tracking_set_exec_identity (some h) (some b) s).2.execs c).reference_count =
      (s.execs c).reference_count - 2 * (if h.exec_handle.identity = some c then 1 else 0)
        + (if b = c then 1 else 0) := by
  simp only [ec_process_tracking_set_exec_identity, exec_handle_set_rc, put_exec_identity_rc,
    ec_process_exec_identity, Option.some.injEq]
  omega

/-- C24, the code: `ec_process_tracking_set_exec_identity` on a non-null handle
and a non-null ExecIdentity B releases the identity A that the snapshot holds
twice, once itself and once inside `ec_exec_handle_set_exec_identity`, and
takes one reference on B. So with A different from B the count of A drops by
two. In the example the handle of pid 5 holds the image at address 1, which is
referenced by the handle and by the PosixIdentity: after the call its count is
0 and it has been deleted, while the image at address 2 has gained one
reference. -/
theorem C24_handle_set_exec_identity_releases_twice (h : ProcessHandle) (b : Nat)
    (s : State) (c : Nat) :
    ((ec_process_tracking_set_exec_identity (some h) (some b) s).2.execs c).reference_count =
      (s.execs c).reference_count - 2 * (if h.exec_handle.identity = some c then 1 else 0)
        + (if b = c then 1 else 0) ∧
    ((exampleState 2).execs 1).reference_count = 2 ∧
    ((ec_process_tracking_set_exec_identity (some exampleHandle) (some 2)
      (exampleState 2)).2.execs 1).reference_count = 0 ∧
    ((ec_process_tracking_set_exec_identity (some exampleHandle) (some 2)
      (exampleState 2)).2.execs 1).freed = true ∧
    ((ec_process_tracking_set_exec_identity (some exampleHandle) (some 2)
      (exampleState 2)).2.execs 2).reference_count =
      ((exampleState 2).execs 2).reference_count + 1 :=
  ⟨handle_set_exec_identity_rc h b s c, by decide, by decide, by decide, by decide⟩

/-! ## Re-setting a slot to the identity it holds: claim C26 -/

/-- Writing back the value an address already holds changes nothing. -/
theorem heapSet_self {α : Type} (h : Nat → α) (a : Nat) : heapSet h a (h a) = h := by
  funext b
  simp only [heapSet_apply]
  split
  · rename_i e; rw [e]
  · rfl

/-- A release followed by a get of the same identity restores the state, when
the release is not the last one. -/
theorem put_then_get_ref_same (e : Nat) (s : State) (hrc : (s.execs e).reference_count ≠ 1) :
    ec_process_tracking_get_exec_identity_ref (some e)
      (ec_process_tracking_put_exec_identity (some e) s) = (some e, s) := by
  rw [put_exec_identity_alive e s hrc]
  simp only [ec_process_tracking_get_exec_identity_ref, heapSet_same, heapSet_heapSet,
    Int.sub_add_cancel]
  have : ({ s.execs e with reference_count := (s.execs e).reference_count } : ExecIdentity) =
      s.execs e := rfl
  rw [this, heapSet_self]

/-- C26, as stated, fails at a count of exactly 1: pid 5 holds the image at
address 1, referenced once. `ec_process_posix_identity_set_exec_identity`
with that same identity releases it first, which drops the count to zero and
deletes the identity (its path is released and gone) before the reference is
taken again. -/
theorem C26_counterexample :
    (examplePosix (some 1) none).exec_identity = some 1 ∧
    ((exampleState 1).execs 1).reference_count = 1 ∧
    ((ec_process_tracking_put_exec_identity (examplePosix (some 1) none).exec_identity
      (exampleState 1)).execs 1).reference_count = 0 ∧
    ((ec_process_posix_identity_set_exec_identity (some (examplePosix (some 1) none)) (some 1)
      (exampleState 1)).2.execs 1).freed = true ∧
    ((ec_process_posix_identity_set_exec_identity (some (examplePosix (some 1) none)) (some 1)
      (exampleState 1)).2.execs 1).path = none ∧
    ((exampleState 1).execs 1).path = some 7 := by
  decide

/-- C26, amended: for a PosixIdentity whose exec_identity (respectively
temp_exec_identity) is E, and for every reference count of E that is at least
2, `ec_process_posix_identity_set_exec_identity` (respectively
`ec_process_tracking_set_temp_exec_identity`) with E does not drive the count
of E to zero at its intermediate step, the state after the release, so E is
not deleted, and it leaves the PosixIdentity and every shared object, the
count of E included, exactly as they were. -/
theorem C26_reset_same_identity_is_harmless (p q : PosixIdentity) (e : Nat) (s : State)
    (hp : p.exec_identity = some e) (hq : q.temp_exec_identity = some e)
    (hrc : 2 ≤ (s.execs e).reference_count) :
    1 ≤ ((ec_process_tracking_put_exec_identity p.exec_identity s).execs e).reference_count ∧
    ec_process_posix_identity_set_exec_identity (some p) (some e) s = (some p, s) ∧
    1 ≤ ((ec_process_tracking_put_exec_identity q.temp_exec_identity s).execs
      e).reference_count ∧
    ec_process_tracking_set_temp_exec_identity (some q) (some e) s = (some q, s) := by
  have hne : (s.execs e).reference_count ≠ 1 := by omega
  refine ⟨?_, ?_, ?_, ?_⟩
  · rw [put_exec_identity_rc, hp]; simp; omega
  · simp only [ec_process_posix_identity_set_exec_identity, hp, put_then_get_ref_same e s hne]
    rw [← hp]
  · rw [put_exec_identity_rc, hq]; simp; omega
  · simp only [ec_process_tracking_set_temp_exec_identity, hq, put_then_get_ref_same e s hne]
    rw [← hq]

/-- Witness of the amended C26: the image at address 1 is referenced twice. -/
theorem C26_reset_same_identity_is_harmless_witness :
    (examplePosix (some 1) none).exec_identity = some 1 ∧
    (examplePosix none (some 1)).temp_exec_identity = some 1 ∧
    2 ≤ ((exampleState 2).execs 1).reference_count ∧
    ec_process_posix_identity_set_exec_identity (some (examplePosix (some 1) none)) (some 1)
      (exampleState 2) = (some (examplePosix (some 1) none), exampleState 2) :=
  ⟨rfl, rfl, by decide,
    (C26_reset_same_identity_is_harmless (examplePosix (some 1) none)
      (examplePosix none (some 1)) 1 (exampleState 2) rfl rfl (by decide)).2.1⟩

end KernelEventCollector
